import Mathlib

/-!
Verification development for the MCP tool-federation gateway
(`mcp_server_manager.py`, `tool_retrieval_manager.py`, `dynamic_tool_loader.py`,
`langgraph_integration.py`, `mongodb_client.py`).

The Python code is shallowly embedded: pure helpers become Lean functions,
stateful methods become explicit state-passing functions, network effects are
parameters (environments) supplying the observable outcome of each wire
interaction, and raised exceptions become `Option`/`none`.  JSON values are
modelled by the inductive `Json`; numbers are integers (the tool metadata the
gateway hashes and formats carries no floating-point literals, which are
outside this model).  Python `dict`s become association lists with insertion
order preserved, matching CPython semantics.
-/

/-! ## Python-flavoured primitives -/

/-- Python string comparison: lexicographic on Unicode code points. -/
def charListLt : List Char → List Char → Bool
  | [], [] => false
  | [], _ :: _ => true
  | _ :: _, [] => false
  | c :: cs, d :: ds =>
      if c.toNat < d.toNat then true
      else if d.toNat < c.toNat then false
      else charListLt cs ds

/-- Python `a < b` on `str`. -/
def pyStrLt (a b : String) : Bool := charListLt a.toList b.toList

/-- Stable insertion of a string into an ascending list (Python `sorted`). -/
def insStrAsc (x : String) : List String → List String
  | [] => [x]
  | y :: ys => if pyStrLt y x then y :: insStrAsc x ys else x :: y :: ys

/-- Python `sorted` on a list of strings (stable, ascending by code point). -/
def sortStrings : List String → List String
  | [] => []
  | x :: xs => insStrAsc x (sortStrings xs)

/-- Does the second character list start with the first? -/
def charListStarts : List Char → List Char → Bool
  | [], _ => true
  | _ :: _, [] => false
  | c :: cs, d :: ds => c == d && charListStarts cs ds

/-- Contiguous-infix test on character lists. -/
def charListInfix (needle : List Char) : List Char → Bool
  | [] => needle.isEmpty
  | c :: t => charListStarts needle (c :: t) || charListInfix needle t

/-- Python `needle in hay` on strings: contiguous substring test. -/
def pyInStr (needle hay : String) : Bool :=
  charListInfix needle.toList hay.toList

/-- Python `sep.join(xs)`. -/
def pyJoin (sep : String) : List String → String
  | [] => ""
  | [x] => x
  | x :: y :: xs => x ++ sep ++ pyJoin sep (y :: xs)

/-- Python truthiness of an optional string (`None` and `""` are falsy). -/
def optStrTruthy : Option String → Bool
  | none => false
  | some s => s != ""

/-- Python dict lookup `d.get(k)` over an insertion-ordered association list. -/
def pyGet {α : Type} : List (String × α) → String → Option α
  | [], _ => none
  | p :: ps, k => if p.1 = k then some p.2 else pyGet ps k

/-- Python dict assignment `d[k] = v`: overwrite in place, else append. -/
def pySet {α : Type} : List (String × α) → String → α → List (String × α)
  | [], k, v => [(k, v)]
  | p :: ps, k, v => if p.1 = k then (k, v) :: ps else p :: pySet ps k v

/-- Python `del d[k]` (no error reported if absent; deletion of the entry). -/
def pyDel {α : Type} : List (String × α) → String → List (String × α)
  | [], _ => []
  | p :: ps, k => if p.1 = k then ps else p :: pyDel ps k

/-- Python `k in d` for dicts. -/
def pyContains {α : Type} (d : List (String × α)) (k : String) : Bool :=
  (pyGet d k).isSome

/-- Python `dict.update`: fold the right dict into the left one. -/
def pyUpdate {α : Type} (d e : List (String × α)) : List (String × α) :=
  e.foldl (fun acc p => pySet acc p.1 p.2) d

/-! ## JSON values

Integers only (`json.dumps`/`json.loads` of the gateway's tool metadata);
objects keep insertion order like Python dicts. -/

inductive Json where
  | null
  | bool (b : Bool)
  | num (n : Int)
  | str (s : String)
  | arr (xs : List Json)
  | obj (fields : List (String × Json))

/-- Python truthiness of a JSON value. -/
def jsonTruthy : Json → Bool
  | .null => false
  | .bool b => b
  | .num n => n != 0
  | .str s => !s.isEmpty
  | .arr xs => !xs.isEmpty
  | .obj fs => !fs.isEmpty

/-- One lowercase hex digit. -/
def hexDigit (n : Nat) : Char :=
  if n < 10 then Char.ofNat (48 + n) else Char.ofNat (87 + n)

/-- The escape of one character inside a JSON string literal
(`json.dumps` with `ensure_ascii=False`): backslash, quote and the
control characters are escaped, everything else is kept verbatim. -/
def jsonEscapeChar (c : Char) : List Char :=
  if c = '\\' then ['\\', '\\']
  else if c = '"' then ['\\', '"']
  else if c.toNat < 32 then
    match c.toNat with
    | 8 => ['\\', 'b']
    | 9 => ['\\', 't']
    | 10 => ['\\', 'n']
    | 12 => ['\\', 'f']
    | 13 => ['\\', 'r']
    | n => ['\\', 'u', '0', '0', hexDigit (n / 16), hexDigit (n % 16)]
  else [c]

/-- A JSON string literal, quotes included. -/
def jsonQuote (s : String) : String :=
  "\"" ++ String.mk (s.toList.flatMap jsonEscapeChar) ++ "\""

/-- Stable insertion for (key, rendered value) pairs, ascending by key. -/
def insPairAsc (p : String × String) : List (String × String) → List (String × String)
  | [] => [p]
  | q :: qs => if pyStrLt q.1 p.1 then q :: insPairAsc p qs else p :: q :: qs

/-- Python `sorted` of dict items by key (stable). -/
def sortPairsByKey : List (String × String) → List (String × String)
  | [] => []
  | p :: ps => insPairAsc p (sortPairsByKey ps)

mutual
/-- `json.dumps(v, sort_keys=True, ensure_ascii=False)`: canonical rendering
with keys sorted at every level and Python's default separators. -/
def jsonDumpsSorted : Json → String
  | .null => "null"
  | .bool true => "true"
  | .bool false => "false"
  | .num n => toString n
  | .str s => jsonQuote s
  | .arr xs => "[" ++ pyJoin ", " (jsonDumpsSortedList xs) ++ "]"
  | .obj fs =>
      "\x7b" ++
        pyJoin ", " ((sortPairsByKey (jsonDumpsSortedFields fs)).map
          (fun p => jsonQuote p.1 ++ ": " ++ p.2)) ++ "\x7d"

/-- Renders each array element. -/
def jsonDumpsSortedList : List Json → List String
  | [] => []
  | j :: js => jsonDumpsSorted j :: jsonDumpsSortedList js

/-- Renders each field value, keeping its key for the later sort. -/
def jsonDumpsSortedFields : List (String × Json) → List (String × String)
  | [] => []
  | (k, v) :: fs => (k, jsonDumpsSorted v) :: jsonDumpsSortedFields fs
end

/-- `n` spaces. -/
def spaces (n : Nat) : String := String.mk (List.replicate n ' ')

mutual
/-- `json.dumps(v, ensure_ascii=False, indent=2)`: pretty rendering at the
given enclosing indentation, insertion order preserved (no key sort),
separators `(",", ": ")` as Python uses with an indent. -/
def jsonDumpsIndent : Nat → Json → String
  | _, .null => "null"
  | _, .bool true => "true"
  | _, .bool false => "false"
  | _, .num n => toString n
  | _, .str s => jsonQuote s
  | _, .arr [] => "[]"
  | ind, .arr (x :: xs) =>
      "[\n" ++ pyJoin ",\n" ((jsonDumpsIndentList (ind + 2) (x :: xs)).map
        (fun r => spaces (ind + 2) ++ r)) ++ "\n" ++ spaces ind ++ "]"
  | _, .obj [] => "\x7b\x7d"
  | ind, .obj (f :: fs) =>
      "\x7b\n" ++ pyJoin ",\n" ((jsonDumpsIndentFields (ind + 2) (f :: fs)).map
        (fun p => spaces (ind + 2) ++ jsonQuote p.1 ++ ": " ++ p.2)) ++
        "\n" ++ spaces ind ++ "\x7d"

/-- Pretty-renders each array element. -/
def jsonDumpsIndentList : Nat → List Json → List String
  | _, [] => []
  | ind, j :: js => jsonDumpsIndent ind j :: jsonDumpsIndentList ind js

/-- Pretty-renders each field value. -/
def jsonDumpsIndentFields : Nat → List (String × Json) → List (String × String)
  | _, [] => []
  | ind, (k, v) :: fs => (k, jsonDumpsIndent ind v) :: jsonDumpsIndentFields ind fs
end

/-- `json.dumps(v, ensure_ascii=False, indent=2)` at top level. -/
def jsonDumpsIndent2 (j : Json) : String := jsonDumpsIndent 0 j

/-! ## UTF-8 and SHA-256

`hashlib.sha256(version_str.encode("utf-8")).hexdigest()` is modelled by an
executable SHA-256 over byte lists (bytes as `Nat` below 256, 32-bit words as
`Nat` reduced `% 2^32`). -/

/-- UTF-8 encoding of one character. -/
def utf8Char (c : Char) : List Nat :=
  let n := c.toNat
  if n < 128 then [n]
  else if n < 2048 then [192 + n / 64, 128 + n % 64]
  else if n < 65536 then [224 + n / 4096, 128 + (n / 64) % 64, 128 + n % 64]
  else [240 + n / 262144, 128 + (n / 4096) % 64, 128 + (n / 64) % 64, 128 + n % 64]

/-- UTF-8 encoding of a string, as a byte list. -/
def utf8Encode (s : String) : List Nat :=
  s.toList.flatMap utf8Char

/-- 2^32, the word modulus of SHA-256. -/
def word32 : Nat := 4294967296

/-- Right rotation of a 32-bit word. -/
def rotr32 (x n : Nat) : Nat := ((x >>> n) ||| (x <<< (32 - n))) % word32

/-- The 64 SHA-256 round constants of FIPS 180-4, in decimal. -/
def sha256K : List Nat :=
  [1116352408, 1899447441, 3049323471, 3921009573, 961987163, 1508970993,
   2453635748, 2870763221, 3624381080, 310598401, 607225278, 1426881987,
   1925078388, 2162078206, 2614888103, 3248222580, 3835390401, 4022224774,
   264347078, 604807628, 770255983, 1249150122, 1555081692, 1996064986,
   2554220882, 2821834349, 2952996808, 3210313671, 3336571891, 3584528711,
   113926993, 338241895, 666307205, 773529912, 1294757372, 1396182291,
   1695183700, 1986661051, 2177026350, 2456956037, 2730485921, 2820302411,
   3259730800, 3345764771, 3516065817, 3600352804, 4094571909, 275423344,
   430227734, 506948616, 659060556, 883997877, 958139571, 1322822218,
   1537002063, 1747873779, 1955562222, 2024104815, 2227730452, 2361852424,
   2428436474, 2756734187, 3204031479, 3329325298]

/-- The eight SHA-256 working registers. -/
structure Sha256State where
  a : Nat
  b : Nat
  c : Nat
  d : Nat
  e : Nat
  f : Nat
  g : Nat
  h : Nat

/-- The SHA-256 initial hash value. -/
def sha256Init : Sha256State :=
  ⟨1779033703, 3144134277, 1013904242, 2773480762, 1359893119, 2600822924, 528734635, 1541459225⟩

/-- Big-endian grouping of bytes into 32-bit words. -/
def bytesToWordsBE : List Nat → List Nat
  | b0 :: b1 :: b2 :: b3 :: rest =>
      (b0 * 16777216 + b1 * 65536 + b2 * 256 + b3) :: bytesToWordsBE rest
  | _ => []

/-- `k`-byte big-endian encoding of a natural number. -/
def natToBytesBE : Nat → Nat → List Nat
  | 0, _ => []
  | k + 1, n => natToBytesBE k (n / 256) ++ [n % 256]

/-- SHA-256 padding: `0x80`, zeros to 56 mod 64, then the 64-bit bit length. -/
def sha256Pad (msg : List Nat) : List Nat :=
  let padZeros := (119 - msg.length % 64) % 64
  msg ++ [128] ++ List.replicate padZeros 0 ++ natToBytesBE 8 (8 * msg.length)

/-- Appends the next word of the message schedule. -/
def sha256ScheduleStep (w : List Nat) : List Nat :=
  let n := w.length
  let s0 :=
    let x := w.getD (n - 15) 0
    (rotr32 x 7) ^^^ (rotr32 x 18) ^^^ (x >>> 3)
  let s1 :=
    let x := w.getD (n - 2) 0
    (rotr32 x 17) ^^^ (rotr32 x 19) ^^^ (x >>> 10)
  w ++ [(w.getD (n - 16) 0 + s0 + w.getD (n - 7) 0 + s1) % word32]

/-- Extends a 16-word block by `k` schedule words. -/
def sha256ScheduleExtend : Nat → List Nat → List Nat
  | 0, w => w
  | k + 1, w => sha256ScheduleExtend k (sha256ScheduleStep w)

/-- One SHA-256 compression round for a (round constant, schedule word) pair. -/
def sha256Round (st : Sha256State) (kw : Nat × Nat) : Sha256State :=
  let s1 := (rotr32 st.e 6) ^^^ (rotr32 st.e 11) ^^^ (rotr32 st.e 25)
  let ch := (st.e &&& st.f) ^^^ ((word32 - 1 - st.e) &&& st.g)
  let t1 := (st.h + s1 + ch + kw.1 + kw.2) % word32
  let s0 := (rotr32 st.a 2) ^^^ (rotr32 st.a 13) ^^^ (rotr32 st.a 22)
  let maj := (st.a &&& st.b) ^^^ (st.a &&& st.c) ^^^ (st.b &&& st.c)
  let t2 := (s0 + maj) % word32
  ⟨(t1 + t2) % word32, st.a, st.b, st.c, (st.d + t1) % word32, st.e, st.f, st.g⟩

/-- Compression of one 16-word block into the running state. -/
def sha256Compress (st : Sha256State) (block : List Nat) : Sha256State :=
  let w := sha256ScheduleExtend 48 block
  let r := (sha256K.zip w).foldl (fun s kw => sha256Round s (kw.1, kw.2)) st
  ⟨(st.a + r.a) % word32, (st.b + r.b) % word32, (st.c + r.c) % word32, (st.d + r.d) % word32,
   (st.e + r.e) % word32, (st.f + r.f) % word32, (st.g + r.g) % word32, (st.h + r.h) % word32⟩

/-- Folds the compression over the 16-word blocks (fuel = block count). -/
def sha256Blocks : Nat → Sha256State → List Nat → Sha256State
  | 0, st, _ => st
  | _ + 1, st, [] => st
  | k + 1, st, ws => sha256Blocks k (sha256Compress st (ws.take 16)) (ws.drop 16)

/-- SHA-256 digest (32 bytes) of a byte list. -/
def sha256 (msg : List Nat) : List Nat :=
  let ws := bytesToWordsBE (sha256Pad msg)
  let st := sha256Blocks (ws.length / 16) sha256Init ws
  [st.a, st.b, st.c, st.d, st.e, st.f, st.g, st.h].flatMap (natToBytesBE 4)

/-- Lowercase hex rendering of a byte list (`hexdigest`). -/
def bytesToHex (bs : List Nat) : String :=
  String.mk (bs.flatMap (fun b => [hexDigit (b / 16), hexDigit (b % 16)]))

/-! ## Data model (`mcp_server_manager.py`)

`MCPServer` and `ToolInfo` dataclasses.  The `server_info` blob is kept as an
optional JSON value.  `__post_init__` normalisation is applied by the `mk`
constructors. -/

/-- The `MCPServer` dataclass after `__post_init__`. -/
structure MCPServer where
  id : String
  url : String
  type : String
  enabled : Bool
  headers : List (String × String)
  name : Option String
  description : Option String
  category : Option String
  tags : List String
  session_id : Option String
  requires_session : Bool
deriving DecidableEq

/-- Constructs an `MCPServer` the way `load_config` does (only id, url, type
and headers are supplied; `__post_init__` derives `requires_session`). -/
def mkMCPServer (id url ty : String) (headers : List (String × String)) : MCPServer :=
  { id := id, url := url, type := ty, enabled := true, headers := headers,
    name := none, description := none, category := none, tags := [],
    session_id := none,
    requires_session := ty == "streamable_http" || ty == "sse" }

/-- The `ToolInfo` dataclass after `__post_init__` (tags and parameters
defaulted when `None`). -/
structure ToolInfo where
  name : String
  description : String
  server_id : String
  server_url : String
  parameters : Json
  category : Option String
  tags : List String

/-- The compound identity `f"{server_id}:{name}"`. -/
def toolKey (server_id name : String) : String := server_id ++ ":" ++ name

/-! ## Version hashing (`tool_retrieval_manager.py`) -/

/-- An optional string as the JSON value `json.dumps` would see. -/
def optStrJson : Option String → Json
  | none => Json.null
  | some s => Json.str s

/-- The `version_data` dict of `_generate_tool_version`, in source order
(`tags` sorted there, empty when the list is falsy). -/
def toolVersionData (t : ToolInfo) : Json :=
  Json.obj
    [("name", Json.str t.name),
     ("description", Json.str t.description),
     ("parameters", t.parameters),
     ("server_id", Json.str t.server_id),
     ("category", optStrJson t.category),
     ("tags", Json.arr ((if t.tags.isEmpty then [] else sortStrings t.tags).map Json.str))]

/-- `ToolRetrievalManager._generate_tool_version`: first 16 hex characters of
the SHA-256 of the canonical JSON of the version data. -/
def generate_tool_version (t : ToolInfo) : String :=
  (bytesToHex (sha256 (utf8Encode (jsonDumpsSorted (toolVersionData t))))).take 16

/-- The `version_data` dict of `_generate_server_version`, in source order. -/
def serverVersionData (s : MCPServer) : Json :=
  Json.obj
    [("id", Json.str s.id),
     ("name", optStrJson s.name),
     ("description", optStrJson s.description),
     ("url", Json.str s.url),
     ("category", optStrJson s.category),
     ("tags", Json.arr ((if s.tags.isEmpty then [] else sortStrings s.tags).map Json.str))]

/-- `ToolRetrievalManager._generate_server_version`. -/
def generate_server_version (s : MCPServer) : String :=
  (bytesToHex (sha256 (utf8Encode (jsonDumpsSorted (serverVersionData s))))).take 16

/-! ## Python `str()` / `repr()` of JSON-shaped values

Needed where the source interpolates arbitrary values into f-strings. -/

/-- The quote character Python `repr` picks for a string. -/
def pyReprQuote (s : String) : Char :=
  if s.toList.contains (Char.ofNat 39) && !s.toList.contains '"' then '"'
  else Char.ofNat 39

/-- Escape of one character inside a Python string repr with quote `q`. -/
def pyReprEscChar (q c : Char) : List Char :=
  if c = '\\' then ['\\', '\\']
  else if c = q then ['\\', q]
  else if c.toNat = 10 then ['\\', 'n']
  else if c.toNat = 13 then ['\\', 'r']
  else if c.toNat = 9 then ['\\', 't']
  else if c.toNat < 32 || c.toNat = 127 then
    ['\\', 'x', hexDigit (c.toNat / 16), hexDigit (c.toNat % 16)]
  else [c]

/-- Python `repr` of a string. -/
def pyReprStr (s : String) : String :=
  let q := pyReprQuote s
  String.mk (q :: s.toList.flatMap (pyReprEscChar q) ++ [q])

mutual
/-- Python `repr` of a JSON-shaped value. -/
def pyRepr : Json → String
  | .null => "None"
  | .bool true => "True"
  | .bool false => "False"
  | .num n => toString n
  | .str s => pyReprStr s
  | .arr xs => "[" ++ pyJoin ", " (pyReprList xs) ++ "]"
  | .obj fs => "\x7b" ++ pyJoin ", " (pyReprFields fs) ++ "\x7d"

/-- Reprs of the elements of a list. -/
def pyReprList : List Json → List String
  | [] => []
  | j :: js => pyRepr j :: pyReprList js

/-- Reprs of the items of a dict, as `key: value`. -/
def pyReprFields : List (String × Json) → List String
  | [] => []
  | (k, v) :: fs => (pyReprStr k ++ ": " ++ pyRepr v) :: pyReprFields fs
end

/-- Python `str()` of a JSON-shaped value (strings verbatim, rest as repr). -/
def pyStrJson : Json → String
  | .str s => s
  | .null => "None"
  | .bool true => "True"
  | .bool false => "False"
  | .num n => toString n
  | .arr xs => pyRepr (Json.arr xs)
  | .obj fs => pyRepr (Json.obj fs)

/-- Python `f"{x}"` of an optional string (`None` renders as `"None"`). -/
def pyFStrOptStr : Option String → String
  | none => "None"
  | some s => s

/-! ## Search text and tool documents (`tool_retrieval_manager.py`)

`_build_search_text` can raise (`.get`/`.items()` on a non-dict inside the
parameter block); a raise is `none`. -/

/-- The `参数` entries collected from `properties.items()`;
`none` when a `param_info` is not a dict (`AttributeError`). -/
def paramDescLines : List (String × Json) → Option (List String)
  | [] => some []
  | (pname, pinfo) :: rest =>
      match pinfo with
      | .obj ifs =>
          let pdesc := (pyGet ifs "description").getD (Json.str "")
          let here := if jsonTruthy pdesc then [pname ++ ": " ++ pyStrJson pdesc] else []
          (paramDescLines rest).map (fun ds => here ++ ds)
      | _ => none

/-- The optional trailing `参数: ...` line of the search text. -/
def searchTextParamPart (params : Json) : Option (List String) :=
  match params with
  | .obj fs =>
      if fs.isEmpty then some []
      else
        let properties := (pyGet fs "properties").getD (Json.obj [])
        if !jsonTruthy properties then some []
        else
          match properties with
          | .obj pfs =>
              (paramDescLines pfs).map
                (fun ds => if ds.isEmpty then [] else ["参数: " ++ pyJoin ", " ds])
          | _ => none
  | _ => some []

/-- `ToolRetrievalManager._build_search_text`. -/
def build_search_text (t : ToolInfo) (s : MCPServer) : Option String :=
  let parts :=
    ["工具名称: " ++ t.name,
     "工具描述: " ++ t.description,
     "服务器名称: " ++ pyFStrOptStr s.name,
     "服务器描述: " ++ pyFStrOptStr s.description]
  let parts := parts ++ (if optStrTruthy t.category then ["类别: " ++ t.category.getD ""] else [])
  let parts := parts ++ (if t.tags.isEmpty then [] else ["标签: " ++ pyJoin ", " t.tags])
  (searchTextParamPart t.parameters).map (fun ps => pyJoin "\n" (parts ++ ps))

/-- A persisted tool document (`_build_tool_document`), timestamps supplied. -/
structure ToolDoc where
  tool_id : String
  tool_name : String
  tool_description : String
  tool_parameters : Json
  server_id : String
  server_name : Option String
  category : Option String
  tags : List String
  search_text : String
  tool_version : String
  server_version : String
  last_discovered_at : String
  indexed_at : String

/-- `ToolRetrievalManager._build_tool_document` (`none` when the search text
raises). -/
def build_tool_document (t : ToolInfo) (s : MCPServer) (now : String) : Option ToolDoc :=
  (build_search_text t s).map (fun text =>
    { tool_id := toolKey t.server_id t.name,
      tool_name := t.name,
      tool_description := t.description,
      tool_parameters := t.parameters,
      server_id := t.server_id,
      server_name := s.name,
      category := if optStrTruthy t.category then t.category else s.category,
      tags := if !t.tags.isEmpty then t.tags else if !s.tags.isEmpty then s.tags else [],
      search_text := text,
      tool_version := generate_tool_version t,
      server_version := generate_server_version s,
      last_discovered_at := now,
      indexed_at := now })

/-! ## Catalogue manager state (`MCPServerManager`)

The mutable fields of the manager that the discovery path reads and writes.
Wire interactions are abstracted by `DiscoverEnv`: `health` is the outcome of
`check_server_health`, `bootstrapOK` the outcome of `_init_server_session`
when discovery has to create a session first, and `listing` the parsed
`tools/list` reply (`none` = any raised failure).  Side effects of the health
probe and bootstrap on the server records themselves (session and descriptive
fields) are not tracked here; the claims below quantify over the tool and
cache maps only. -/

/-- The tools/cache portion of the manager's state.  `tools` is `self.tools`
(keyed `server_id:name`); the cache stores per-server tool lists with their
timestamps (`asdict`/reconstruct round-trips are identities). -/
structure ManagerState where
  servers : List (String × MCPServer)
  tools : List (String × ToolInfo)
  tools_cache : List (String × List ToolInfo)
  cache_timestamps : List (String × Nat)

/-- One raw entry of a `tools/list` reply, after field extraction
(`name`/`description` defaulted to `""`, `parameters` taken from
`parameters` or `inputSchema`). -/
structure RawTool where
  name : String
  description : String
  parameters : Json

/-- The environment a discovery call runs against. -/
structure DiscoverEnv where
  health : String → Bool
  bootstrapOK : String → Bool
  listing : String → Option (List RawTool)

/-- `cache_ttl` in seconds. -/
def cacheTtl : Nat := 3600

/-- `MCPServerManager._is_cache_valid`. -/
def is_cache_valid (st : ManagerState) (now : Nat) (server_id : String) : Bool :=
  match pyGet st.cache_timestamps server_id with
  | none => false
  | some ts => now - ts < cacheTtl

/-- `MCPServerManager._get_tools_from_cache`. -/
def get_tools_from_cache (st : ManagerState) (server_id : String) : List ToolInfo :=
  (pyGet st.tools_cache server_id).getD []

/-- `MCPServerManager._update_cache`. -/
def update_cache (st : ManagerState) (server_id : String) (tools : List ToolInfo) (now : Nat) :
    ManagerState :=
  { st with tools_cache := pySet st.tools_cache server_id tools,
            cache_timestamps := pySet st.cache_timestamps server_id now }

/-- `MCPServerManager._clear_cache`. -/
def clear_cache (st : ManagerState) (server_id : String) : ManagerState :=
  { st with tools_cache := pyDel st.tools_cache server_id,
            cache_timestamps := pyDel st.cache_timestamps server_id }

/-- The `ToolInfo` built for one discovered raw tool. -/
def rawToToolInfo (server : MCPServer) (td : RawTool) : ToolInfo :=
  { name := td.name, description := td.description, server_id := server.id,
    server_url := server.url, parameters := td.parameters,
    category := server.category, tags := server.tags }

/-- `MCPServerManager._discover_tools_from_server`: bootstraps a session when
one is required and missing, fetches `tools/list`, converts every entry and
writes it into `self.tools` (no entry is ever removed).  `none` = raised. -/
def discover_tools_from_server (env : DiscoverEnv) (st : ManagerState) (server : MCPServer) :
    Option (List ToolInfo × ManagerState) :=
  if server.requires_session && !optStrTruthy server.session_id && !env.bootstrapOK server.id then
    none
  else
    match env.listing server.id with
    | none => none
    | some tds =>
        let tools := tds.map (rawToToolInfo server)
        let tools2 := tools.foldl (fun m t => pySet m (toolKey server.id t.name) t) st.tools
        some (tools, { st with tools := tools2 })

/-- The body of `discover_tools`' per-server loop, folded over the targets. -/
def discover_loop (env : DiscoverEnv) (now : Nat) (force_refresh : Bool) :
    List MCPServer → List (String × List ToolInfo) → ManagerState →
    List (String × List ToolInfo) × ManagerState
  | [], acc, st => (acc, st)
  | server :: rest, acc, st =>
      if !server.enabled then
        discover_loop env now force_refresh rest acc st
      else if !env.health server.id then
        discover_loop env now force_refresh rest acc (clear_cache st server.id)
      else if !force_refresh && is_cache_valid st now server.id then
        discover_loop env now force_refresh rest
          (pySet acc server.id (get_tools_from_cache st server.id)) st
      else
        match discover_tools_from_server env st server with
        | some (tools, st2) =>
            discover_loop env now force_refresh rest
              (pySet acc server.id tools) (update_cache st2 server.id tools now)
        | none => discover_loop env now force_refresh rest acc st

/-- The target list `servers_to_discover` of `discover_tools` (`server_id`
falsy selects every server; an unknown id selects nothing). -/
def discover_targets (st : ManagerState) (server_id : Option String) : List MCPServer :=
  if optStrTruthy server_id then
    match pyGet st.servers (server_id.getD "") with
    | some s => [s]
    | none => []
  else
    st.servers.map Prod.snd

/-- `MCPServerManager.discover_tools`. -/
def discover_tools (env : DiscoverEnv) (st : ManagerState) (now : Nat)
    (server_id : Option String) (force_refresh : Bool) :
    List (String × List ToolInfo) × ManagerState :=
  if optStrTruthy server_id && !pyContains st.servers (server_id.getD "") then
    ([], st)
  else
    discover_loop env now force_refresh (discover_targets st server_id) [] st

/-! ## Session initialisation (`_init_server_session`, non-SSE path)

The HTTP exchange is a parameter.  The function returns the reported success
and the updated server record (`_set_default_server_info` filling unset
fields on the failure paths). -/

/-- The `serverInfo` portion of a successful initialize result. -/
structure ServerInfoData where
  name : Option String
  description : Option String

/-- A parsed initialize exchange outcome as the adapter sees it. -/
inductive InitResponse where
  | httpError (status : Nat)
  | badJson
  | rpcError (code : Option Int) (message : String)
  | rpcResult (headerSessionId : Option String) (resultSessionId : Option String)
      (serverInfo : Option ServerInfoData)

/-- `MCPServerManager._set_default_server_info`. -/
def set_default_server_info (s : MCPServer) : MCPServer :=
  { s with name := if optStrTruthy s.name then s.name else some s.id,
           description :=
             if optStrTruthy s.description then s.description
             else some ("MCP服务器: " ++ s.id) }

/-- `MCPServerManager._init_server_session` for `http`/`streamable_http`
servers, from the response on: returns `(reported success, updated server)`.
The error branch keeps the source's operator precedence:
`code == -32601 and "未知方法" in msg or "Method not found" in msg`. -/
def init_server_session (server : MCPServer) (resp : InitResponse) : Bool × MCPServer :=
  match resp with
  | .httpError _ => (false, set_default_server_info server)
  | .badJson => (false, set_default_server_info server)
  | .rpcError code msg =>
      if (code == some (-32601) && pyInStr "未知方法" msg) || pyInStr "Method not found" msg then
        (true, set_default_server_info server)
      else
        (false, set_default_server_info server)
  | .rpcResult headerSid resultSid serverInfo =>
      let sessionId := if optStrTruthy headerSid then headerSid else resultSid
      let server1 :=
        if optStrTruthy sessionId then { server with session_id := sessionId } else server
      match serverInfo with
      | some si =>
          let nm : Option String := some (si.name.getD server1.id)
          let ds : Option String := some (si.description.getD ("MCP服务器: " ++ server1.id))
          (true, { server1 with name := nm, description := ds })
      | none =>
          let nm : Option String :=
            if optStrTruthy server1.name then server1.name else some server1.id
          let ds : Option String :=
            if optStrTruthy server1.description then server1.description
            else some ("MCP服务器: " ++ server1.id)
          (true, { server1 with name := nm, description := ds })

/-! ## Document store and index engine (`mongodb_client.py`, `tool_retrieval_manager.py`)

The Mongo collection is a list of documents; `update_one(..., upsert=True)`
replaces the (unique-indexed) matching document or appends.  The bulk-write
acknowledgement count is modelled as the number of submitted operations. -/

/-- Upsert one document by `tool_id`. -/
def storeUpsert (store : List ToolDoc) (d : ToolDoc) : List ToolDoc :=
  match store with
  | [] => [d]
  | e :: es => if e.tool_id = d.tool_id then d :: es else e :: storeUpsert es d

/-- `MongoDBClient.index_tools_batch`: upsert each document in order. -/
def index_tools_batch (store : List ToolDoc) (docs : List ToolDoc) : List ToolDoc :=
  docs.foldl storeUpsert store

/-- `MongoDBClient.get_tool_versions`: the `{tool_id: tool_version}` dict
comprehension over the collection. -/
def get_tool_versions (store : List ToolDoc) : List (String × String) :=
  store.foldl (fun m d => pySet m d.tool_id d.tool_version) []

/-- `MongoDBClient.delete_tool`: whether a document was deleted, and the rest. -/
def delete_tool (store : List ToolDoc) (tool_id : String) : Bool × List ToolDoc :=
  match store with
  | [] => (false, [])
  | e :: es =>
      if e.tool_id = tool_id then (true, es)
      else
        let r := delete_tool es tool_id
        (r.1, e :: r.2)

/-- The flattened tool list of a discovery result (`.values()` joined). -/
def allToolsOf (discovered : List (String × List ToolInfo)) : List ToolInfo :=
  (discovered.map Prod.snd).flatten

/-- The documents `build_index` constructs: tools of unknown servers are
skipped, a raising document build aborts the whole call (`none`). -/
def buildDocsFor (servers : List (String × MCPServer)) (now : String) :
    List ToolInfo → Option (List ToolDoc)
  | [] => some []
  | t :: ts =>
      match pyGet servers t.server_id with
      | none => buildDocsFor servers now ts
      | some s =>
          match build_tool_document t s now with
          | none => none
          | some d => (buildDocsFor servers now ts).map (fun ds => d :: ds)

/-- `ToolRetrievalManager.build_index` given the discovery outcome:
returns the reported count and the new store. -/
def build_index (servers : List (String × MCPServer)) (discovered : List (String × List ToolInfo))
    (store : List ToolDoc) (now : String) : Option (Nat × List ToolDoc) :=
  let all := allToolsOf discovered
  if all.isEmpty then some (0, store)
  else
    (buildDocsFor servers now all).map
      (fun docs => (docs.length, index_tools_batch store docs))

/-- The change sets of `detect_tool_changes`. -/
structure ToolChanges where
  added : List String
  removed : List String
  updated : List String
  unchanged : List String

/-- The `{tool_id: version}` map of the currently discovered tools. -/
def currentVersionMap (discovered : List (String × List ToolInfo)) : List (String × String) :=
  (allToolsOf discovered).foldl
    (fun m t => pySet m (toolKey t.server_id t.name) (generate_tool_version t)) []

/-- `ToolRetrievalManager.detect_tool_changes` given the discovery outcome. -/
def detect_tool_changes (discovered : List (String × List ToolInfo)) (store : List ToolDoc) :
    ToolChanges :=
  let indexed := get_tool_versions store
  let current := currentVersionMap discovered
  { added := (current.filter (fun p => !pyContains indexed p.1)).map Prod.fst,
    updated := (current.filter (fun p =>
        match pyGet indexed p.1 with
        | some w => w != p.2
        | none => false)).map Prod.fst,
    unchanged := (current.filter (fun p => pyGet indexed p.1 == some p.2)).map Prod.fst,
    removed := (indexed.filter (fun p => !pyContains current p.1)).map Prod.fst }

/-- The statistics `refresh_index_incremental` reports. -/
structure RefreshStats where
  added : Nat
  updated : Nat
  removed : Nat
  unchanged : Nat

/-- The deletion pass of the incremental refresh. -/
def deleteRemoved (store : List ToolDoc) : List String → Nat × List ToolDoc
  | [] => (0, store)
  | tid :: tids =>
      let r := delete_tool store tid
      let rest := deleteRemoved r.2 tids
      ((if r.1 then 1 else 0) + rest.1, rest.2)

/-- The `{tool_id: ToolInfo}` map rebuilt for the update pass. -/
def allToolsMap (discovered : List (String × List ToolInfo)) : List (String × ToolInfo) :=
  (allToolsOf discovered).foldl (fun m t => pySet m (toolKey t.server_id t.name) t) []

/-- The documents rebuilt for added/updated ids (skips unknown ids and
servers; a raising document build aborts, `none`). -/
def rebuildDocsFor (servers : List (String × MCPServer)) (toolsMap : List (String × ToolInfo))
    (now : String) : List String → Option (List ToolDoc)
  | [] => some []
  | tid :: tids =>
      match pyGet toolsMap tid with
      | none => rebuildDocsFor servers toolsMap now tids
      | some t =>
          match pyGet servers t.server_id with
          | none => rebuildDocsFor servers toolsMap now tids
          | some s =>
              match build_tool_document t s now with
              | none => none
              | some d => (rebuildDocsFor servers toolsMap now tids).map (fun ds => d :: ds)

/-- `ToolRetrievalManager.refresh_index_incremental` given the discovery
outcome (the same outcome serves both the change detection and the update
pass, as the cache serves both calls): reported statistics and new store. -/
def refresh_index_incremental (servers : List (String × MCPServer))
    (discovered : List (String × List ToolInfo)) (store : List ToolDoc) (now : String) :
    Option (RefreshStats × List ToolDoc) :=
  let changes := detect_tool_changes discovered store
  let del := deleteRemoved store changes.removed
  let toUpdate := changes.added ++ changes.updated
  if toUpdate.isEmpty then
    some ({ added := 0, updated := 0, removed := del.1,
            unchanged := changes.unchanged.length }, del.2)
  else
    match rebuildDocsFor servers (allToolsMap discovered) now toUpdate with
    | none => none
    | some docs =>
        if docs.isEmpty then
          some ({ added := 0, updated := 0, removed := del.1,
                  unchanged := changes.unchanged.length }, del.2)
        else
          let successCount := docs.length
          let addedCount := (toUpdate.filter (fun tid => changes.added.contains tid)).length
          some ({ added := addedCount, updated := successCount - addedCount, removed := del.1,
                  unchanged := changes.unchanged.length }, index_tools_batch del.2 docs)

/-! ## Invocation dispatch (`langgraph_integration.create_tool_node`)

The per-call dispatch of `tool_node`: the query tool is executed directly,
any other name is matched against `<server_id>_<rest>` (longest registered
server id first) and forwarded upstream, otherwise a rejection message is
produced without contacting anything. -/

/-- Stable descending-by-length insertion (Python `sorted(key=len, reverse=True)`). -/
def insLenDesc (x : String) : List String → List String
  | [] => [x]
  | y :: ys => if y.length > x.length then y :: insLenDesc x ys else x :: y :: ys

/-- `sorted(server_ids, key=len, reverse=True)`. -/
def sortIdsByLenDesc : List String → List String
  | [] => []
  | x :: xs => insLenDesc x (sortIdsByLenDesc xs)

/-- The first server id (in the given order) such that the tool name starts
with `id + "_"`, with the remainder of the name. -/
def matchServerTool (sortedIds : List String) (toolName : String) : Option (String × String) :=
  match sortedIds with
  | [] => none
  | sid :: rest =>
      if charListStarts (sid ++ "_").toList toolName.toList then
        some (sid, String.mk (toolName.toList.drop (sid.toList.length + 1)))
      else matchServerTool rest toolName

/-- What `tool_node` does with one tool call. -/
inductive DispatchOutcome where
  | queryTool
  | upstreamCall (server_id tool_name : String)
  | rejected (message : String)
deriving DecidableEq

/-- The rejection content for an unparseable tool name. -/
def unknownToolMessage (toolName : String) (serverIds : List String) : String :=
  "错误: 无法识别工具名称 " ++ toolName ++
    "。工具名称格式应为 server_id_tool_name（例如：file_server_read_file）。可用的服务器ID：" ++
    pyJoin ", " serverIds

/-- The dispatch decision of `tool_node` for one tool call, given the
registry's server ids in insertion order.  `tools_by_id` is not consulted. -/
def tool_node_dispatch (serverIds : List String) (toolName : String) : DispatchOutcome :=
  if toolName == "get_mcp_server_tools" then .queryTool
  else
    match matchServerTool (sortIdsByLenDesc serverIds) toolName with
    | some (sid, rest) =>
        if !sid.isEmpty && !rest.isEmpty then .upstreamCall sid rest
        else .rejected (unknownToolMessage toolName serverIds)
    | none => .rejected (unknownToolMessage toolName serverIds)

/-! ## Wire traces (`MCPToolCaller.call_tool`, `_discover_tools_from_server`)

The outbound activity of one operation, in order: `bootstrap` is a
`_init_server_session` attempt, `send` a JSON-RPC POST with its headers. -/

/-- One observable wire action. -/
inductive WireEvent where
  | bootstrap
  | send (headers : List (String × String))

/-- `MCPServerManager._get_request_headers`. -/
def get_request_headers (s : MCPServer) : List (String × String) :=
  let h := [("Content-Type", "application/json")]
  let h := pyUpdate h s.headers
  let h :=
    if s.type == "streamable_http" || s.type == "sse" then
      pySet h "Accept" "application/json, text/event-stream"
    else h
  if s.requires_session && optStrTruthy s.session_id then
    pySet h "mcp-session-id" (s.session_id.getD "")
  else h

/-- The outbound trace of `MCPToolCaller.call_tool` up to the `tools/call`
POST; `sessionAfterBootstrap` is the server's `session_id` after the inline
`_init_server_session` attempt (unchanged or new). -/
def call_tool_trace (s : MCPServer) (sessionAfterBootstrap : Option String) : List WireEvent :=
  let h := [("Content-Type", "application/json")]
  if s.requires_session then
    let h := pySet h "Accept" "application/json, text/event-stream"
    if optStrTruthy s.session_id then
      [.send (pySet h "mcp-session-id" (s.session_id.getD ""))]
    else
      let h2 :=
        if optStrTruthy sessionAfterBootstrap then
          pySet h "mcp-session-id" (sessionAfterBootstrap.getD "")
        else h
      [.bootstrap, .send h2]
  else [.send h]

/-- The outbound trace of `_discover_tools_from_server` up to the
`tools/list` POST (a failed bootstrap raises before any POST). -/
def discover_list_trace (s : MCPServer) (bootstrapOK : Bool)
    (sessionAfterBootstrap : Option String) : List WireEvent :=
  if s.requires_session && !optStrTruthy s.session_id then
    if bootstrapOK then
      [.bootstrap, .send (get_request_headers { s with session_id := sessionAfterBootstrap })]
    else [.bootstrap]
  else [.send (get_request_headers s)]

/-- Does a header dict carry the session header? -/
def hasSessionHeader (h : List (String × String)) : Bool :=
  pyContains h "mcp-session-id"

/-- Every `send` either carries the session header or follows a `bootstrap`. -/
def sessionSafeFrom : Bool → List WireEvent → Bool
  | _, [] => true
  | _, .bootstrap :: r => sessionSafeFrom true r
  | seen, .send h :: r => (seen || hasSessionHeader h) && sessionSafeFrom seen r

/-- Invariant I5 on a trace. -/
def sessionSafe (tr : List WireEvent) : Bool := sessionSafeFrom false tr

/-! ## JSON parsing (`json.loads`) -/

/-- JSON whitespace. -/
def isJsonWs (c : Char) : Bool := c == ' ' || c == '\t' || c == '\n' || c == '\r'

/-- Drops leading JSON whitespace. -/
def skipWs : List Char → List Char
  | [] => []
  | c :: cs => if isJsonWs c then skipWs cs else c :: cs

/-- ASCII digit test. -/
def isDigitCh (c : Char) : Bool := 48 ≤ c.toNat && c.toNat ≤ 57

/-- The value of one hex digit. -/
def hexCharVal (c : Char) : Option Nat :=
  if 48 ≤ c.toNat && c.toNat ≤ 57 then some (c.toNat - 48)
  else if 97 ≤ c.toNat && c.toNat ≤ 102 then some (c.toNat - 87)
  else if 65 ≤ c.toNat && c.toNat ≤ 70 then some (c.toNat - 55)
  else none

/-- A JSON string body after the opening quote: the decoded characters and
the remaining input. -/
def parseStringBody : List Char → Option (List Char × List Char)
  | [] => none
  | c :: cs =>
      if c == '"' then some ([], cs)
      else if c == '\\' then
        match cs with
        | 'u' :: h1 :: h2 :: h3 :: h4 :: cs2 =>
            match hexCharVal h1, hexCharVal h2, hexCharVal h3, hexCharVal h4 with
            | some a, some b, some d, some e =>
                (parseStringBody cs2).map
                  (fun p => (Char.ofNat (a * 4096 + b * 256 + d * 16 + e) :: p.1, p.2))
            | _, _, _, _ => none
        | e :: cs2 =>
            let decoded : Option Char :=
              if e == '"' then some '"'
              else if e == '\\' then some '\\'
              else if e == '/' then some '/'
              else if e == 'b' then some (Char.ofNat 8)
              else if e == 'f' then some (Char.ofNat 12)
              else if e == 'n' then some (Char.ofNat 10)
              else if e == 'r' then some (Char.ofNat 13)
              else if e == 't' then some (Char.ofNat 9)
              else none
            match decoded with
            | some d => (parseStringBody cs2).map (fun p => (d :: p.1, p.2))
            | none => none
        | [] => none
      else if c.toNat < 32 then none
      else (parseStringBody cs).map (fun p => (c :: p.1, p.2))

/-- The longest leading digit run, as a number with its length. -/
def parseDigits : List Char → Nat → Nat → (Nat × Nat × List Char)
  | [], acc, len => (acc, len, [])
  | c :: cs, acc, len =>
      if isDigitCh c then parseDigits cs (acc * 10 + (c.toNat - 48)) (len + 1)
      else (acc, len, c :: cs)

/-- An unsigned JSON integer (`0|[1-9][0-9]*`); a following `.`, `e` or `E`
means a float literal, which the integer model rejects. -/
def parseUIntNum (cs : List Char) : Option (Nat × List Char) :=
  match cs with
  | c :: rest =>
      if c == '0' then
        match rest with
        | d :: _ => if d == '.' || d == 'e' || d == 'E' then none else some (0, rest)
        | [] => some (0, [])
      else if isDigitCh c then
        let r := parseDigits rest (c.toNat - 48) 1
        match r.2.2 with
        | d :: _ => if d == '.' || d == 'e' || d == 'E' then none else some (r.1, r.2.2)
        | [] => some (r.1, [])
      else none
  | [] => none

/-- A JSON number (integer model). -/
def parseNumber (cs : List Char) : Option (Json × List Char) :=
  match cs with
  | '-' :: rest => (parseUIntNum rest).map (fun p => (Json.num (-(p.1 : Int)), p.2))
  | _ => (parseUIntNum cs).map (fun p => (Json.num (p.1 : Int), p.2))

mutual
/-- One JSON value (fuel-bounded recursive descent; callers supply fuel
larger than the input length so it never runs out on real input). -/
def parseValue : Nat → List Char → Option (Json × List Char)
  | 0, _ => none
  | fuel + 1, input =>
      match skipWs input with
      | [] => none
      | '"' :: rest => (parseStringBody rest).map (fun p => (Json.str (String.mk p.1), p.2))
      | '[' :: rest =>
          (match skipWs rest with
           | ']' :: r2 => some (Json.arr [], r2)
           | r1 => (parseArrItems fuel r1).map (fun p => (Json.arr p.1, p.2)))
      | '\x7b' :: rest =>
          (match skipWs rest with
           | '\x7d' :: r2 => some (Json.obj [], r2)
           | r1 =>
               (parseObjItems fuel r1).map
                 (fun p => (Json.obj (p.1.foldl (fun d q => pySet d q.1 q.2) []), p.2)))
      | 't' :: 'r' :: 'u' :: 'e' :: r => some (Json.bool true, r)
      | 'f' :: 'a' :: 'l' :: 's' :: 'e' :: r => some (Json.bool false, r)
      | 'n' :: 'u' :: 'l' :: 'l' :: r => some (Json.null, r)
      | cs => parseNumber cs

/-- The comma-separated items of a non-empty array, up to `]`. -/
def parseArrItems : Nat → List Char → Option (List Json × List Char)
  | 0, _ => none
  | fuel + 1, cs =>
      (parseValue fuel cs).bind (fun p =>
        match skipWs p.2 with
        | ',' :: r2 => (parseArrItems fuel r2).map (fun q => (p.1 :: q.1, q.2))
        | ']' :: r2 => some ([p.1], r2)
        | _ => none)

/-- The comma-separated members of a non-empty object, up to the closing
brace, in occurrence order (duplicates resolved by the caller as Python
dicts do). -/
def parseObjItems : Nat → List Char → Option (List (String × Json) × List Char)
  | 0, _ => none
  | fuel + 1, cs =>
      match skipWs cs with
      | '"' :: rest =>
          (parseStringBody rest).bind (fun kp =>
            match skipWs kp.2 with
            | ':' :: r2 =>
                (parseValue fuel r2).bind (fun vp =>
                  match skipWs vp.2 with
                  | ',' :: r4 =>
                      (parseObjItems fuel r4).map
                        (fun q => ((String.mk kp.1, vp.1) :: q.1, q.2))
                  | '\x7d' :: r4 => some ([(String.mk kp.1, vp.1)], r4)
                  | _ => none)
            | _ => none)
      | _ => none
end

/-- `json.loads` (integer JSON model): a full-input parse. -/
def pyLoads (s : String) : Option Json :=
  let cs := s.toList
  match parseValue (2 * cs.length + 8) cs with
  | some (v, r) => if (skipWs r).isEmpty then some v else none
  | none => none

/-! ## Reply normalisation (`MCPToolCaller.call_tool`, result handling)

`call_tool_reply_format` covers the parsed JSON-RPC reply from the `error`
check onward; raised exceptions surface as the `"错误: "`-prefixed strings the
enclosing handler produces. -/

/-- The Python type name of a JSON-shaped value. -/
def pyTypeName : Json → String
  | .null => "NoneType"
  | .bool _ => "bool"
  | .num _ => "int"
  | .str _ => "str"
  | .arr _ => "list"
  | .obj _ => "dict"

/-- Python `len(x)` where defined. -/
def pyLen : Json → Option Nat
  | .arr xs => some xs.length
  | .obj fs => some fs.length
  | .str s => some s.length
  | _ => none

/-- The `- <name> (<size> bytes)` lines for the first listed files;
`Except` carries the message of a raised lookup. -/
def formatFilesList : List Json → Except String (List String)
  | [] => .ok []
  | f :: fs =>
      match f with
      | .obj ffs =>
          match pyGet ffs "name" with
          | none => .error "\x27name\x27"
          | some n =>
              match pyGet ffs "size" with
              | none => .error "\x27size\x27"
              | some sz =>
                  (formatFilesList fs).map
                    (fun rest => ("- " ++ pyStrJson n ++ " (" ++ pyStrJson sz ++ " bytes)") :: rest)
      | .str _ => .error "string indices must be integers"
      | other => .error ("\x27" ++ pyTypeName other ++ "\x27 object is not subscriptable")

/-- The directory-listing branch of the result formatting. -/
def formatFilesResult (fs : List (String × Json)) : String :=
  let files := (pyGet fs "files").getD (Json.arr [])
  let dirs := (pyGet fs "directories").getD (Json.arr [])
  let header (nFiles : Nat) (lines : List String) : String :=
    match pyLen dirs with
    | none => "错误: object of type \x27" ++ pyTypeName dirs ++ "\x27 has no len()"
    | some nDirs =>
        "目录: " ++ pyStrJson ((pyGet fs "path").getD Json.null) ++
          "\n文件: " ++ toString nFiles ++ " 个, 目录: " ++ toString nDirs ++ " 个\n" ++
          pyJoin "\n" lines
  match files with
  | .arr l =>
      match formatFilesList (l.take 10) with
      | .error e => "错误: " ++ e
      | .ok lines => header l.length lines
  | .str s =>
      if s.isEmpty then header 0 [] else "错误: string indices must be integers"
  | .obj ofs =>
      if ofs.isEmpty then header 0 [] else "错误: string indices must be integers"
  | other => "错误: \x27" ++ pyTypeName other ++ "\x27 object is not subscriptable"

/-- The result-envelope normalisation of `call_tool` (source lines after the
JSON-RPC error check), applied to `result_data.get("result", {})`. -/
def format_result : Json → String
  | .obj fs =>
      (match pyGet fs "content" with
       | some content =>
           (match content with
            | .arr (x :: _) =>
                (match x with
                 | .obj xfs =>
                     (match (pyGet xfs "text").getD (Json.str "") with
                      | .str t =>
                          (match pyLoads t with
                           | some v => jsonDumpsIndent2 v
                           | none => t)
                      | other =>
                          "错误: the JSON object must be str, bytes or bytearray, not " ++
                            pyTypeName other)
                 | other => "错误: \x27" ++ pyTypeName other ++ "\x27 object has no attribute \x27get\x27")
            | .str s =>
                "文件内容 (" ++ pyStrJson ((pyGet fs "size").getD (Json.num 0)) ++ " 字符):\n" ++ s
            | _ => jsonDumpsIndent2 (Json.obj fs))
       | none =>
           match pyGet fs "success" with
           | some _ =>
               (match pyGet fs "message" with
                | some m => pyStrJson m
                | none => "操作成功")
           | none =>
               match pyGet fs "files" with
               | some _ => formatFilesResult fs
               | none => jsonDumpsIndent2 (Json.obj fs))
  | .null => "操作完成（无返回结果）"
  | other => pyStrJson other

/-- The reply handling of `call_tool` from the `"error" in result_data`
check onward, for a parsed reply value. -/
def call_tool_reply_format (rd : Json) : String :=
  match rd with
  | .obj fs =>
      (match pyGet fs "error" with
       | some err =>
           (match err with
            | .obj efs =>
                let msg := pyStrJson ((pyGet efs "message").getD (Json.str "未知错误"))
                let dataVal := (pyGet efs "data").getD Json.null
                let msg :=
                  if jsonTruthy dataVal then msg ++ ", 详情: " ++ pyStrJson dataVal else msg
                "错误: " ++ msg
            | other =>
                "错误: \x27" ++ pyTypeName other ++ "\x27 object has no attribute \x27get\x27")
       | none => format_result ((pyGet fs "result").getD (Json.obj [])))
  | .arr xs =>
      if xs.any (fun j => match j with | .str s => s == "error" | _ => false) then
        "错误: list indices must be integers or slices, not str"
      else
        "错误: \x27list\x27 object has no attribute \x27get\x27"
  | .str s =>
      if pyInStr "error" s then "错误: string indices must be integers"
      else "错误: \x27str\x27 object has no attribute \x27get\x27"
  | other => "错误: argument of type \x27" ++ pyTypeName other ++ "\x27 is not iterable"

/-! ## Association-list lemmas -/

theorem pyGet_pySet_self {α : Type} (d : List (String × α)) (k : String) (v : α) :
    pyGet (pySet d k v) k = some v := by
  induction d with
  | nil => simp [pySet, pyGet]
  | cons p ps ih =>
      by_cases h : p.1 = k
      · simp [pySet, pyGet, h]
      · simp [pySet, pyGet, h, ih]

theorem pyGet_pySet_ne {α : Type} (d : List (String × α)) (k k2 : String) (v : α)
    (h : k2 ≠ k) : pyGet (pySet d k v) k2 = pyGet d k2 := by
  induction d with
  | nil => simp [pySet, pyGet, Ne.symm h]
  | cons p ps ih =>
      by_cases hp : p.1 = k
      · subst hp
        simp [pySet, pyGet, Ne.symm h]
      · by_cases hp2 : p.1 = k2
        · simp [pySet, pyGet, hp, hp2, h]
        · simp [pySet, pyGet, hp, hp2, ih]

theorem pyContains_pySet_self {α : Type} (d : List (String × α)) (k : String) (v : α) :
    pyContains (pySet d k v) k = true := by
  simp [pyContains, pyGet_pySet_self]

theorem pySet_map_fst_mem {α : Type} (d : List (String × α)) (k k2 : String) (v : α) :
    k2 ∈ (pySet d k v).map Prod.fst ↔ k2 = k ∨ k2 ∈ d.map Prod.fst := by
  induction d with
  | nil => simp [pySet]
  | cons p ps ih =>
      by_cases h : p.1 = k
      · subst h
        simp [pySet]
      · simp only [pySet, if_neg h, List.map_cons, List.mem_cons, ih]
        tauto

theorem pyGet_eq_none_iff {α : Type} (d : List (String × α)) (k : String) :
    pyGet d k = none ↔ k ∉ d.map Prod.fst := by
  induction d with
  | nil => simp [pyGet]
  | cons p ps ih =>
      by_cases h : p.1 = k
      · simp [pyGet, h]
      · simp only [pyGet, if_neg h, ih, List.map_cons, List.mem_cons]
        constructor
        · intro hn
          rintro (h1 | h1)
          · exact h h1.symm
          · exact hn h1
        · intro hn h1
          exact hn (Or.inr h1)

theorem pyGet_pyDel_of_none {α : Type} (d : List (String × α)) (k k2 : String)
    (h : pyGet d k2 = none) : pyGet (pyDel d k) k2 = none := by
  induction d with
  | nil => simp [pyDel, pyGet]
  | cons p ps ih =>
      rw [pyGet] at h
      by_cases hp2 : p.1 = k2
      · rw [if_pos hp2] at h
        exact absurd h (by simp)
      · rw [if_neg hp2] at h
        by_cases hp : p.1 = k
        · rw [pyDel, if_pos hp]
          exact h
        · rw [pyDel, if_neg hp, pyGet, if_neg hp2]
          exact ih h

theorem pyGet_pyDel_self_nodup {α : Type} (d : List (String × α)) (k : String)
    (h : (d.map Prod.fst).Nodup) : pyGet (pyDel d k) k = none := by
  induction d with
  | nil => simp [pyDel, pyGet]
  | cons p ps ih =>
      simp only [List.map_cons, List.nodup_cons] at h
      by_cases hp : p.1 = k
      · rw [pyDel, if_pos hp]
        rw [pyGet_eq_none_iff]
        rw [hp] at h
        exact h.1
      · rw [pyDel, if_neg hp, pyGet, if_neg hp]
        exact ih h.2

theorem pyDel_keys_sublist {α : Type} (d : List (String × α)) (k : String) :
    List.Sublist ((pyDel d k).map Prod.fst) (d.map Prod.fst) := by
  induction d with
  | nil => simp [pyDel]
  | cons p ps ih =>
      by_cases hp : p.1 = k
      · rw [pyDel, if_pos hp]
        simp only [List.map_cons]
        exact List.sublist_cons_of_sublist p.1 (List.Sublist.refl _)
      · rw [pyDel, if_neg hp]
        simp only [List.map_cons]
        exact ih.cons₂ p.1

theorem pyDel_nodup {α : Type} (d : List (String × α)) (k : String)
    (h : (d.map Prod.fst).Nodup) : ((pyDel d k).map Prod.fst).Nodup :=
  (pyDel_keys_sublist d k).nodup h

theorem pySet_nodup {α : Type} (d : List (String × α)) (k : String) (v : α)
    (h : (d.map Prod.fst).Nodup) : ((pySet d k v).map Prod.fst).Nodup := by
  induction d with
  | nil => simp [pySet]
  | cons p ps ih =>
      simp only [List.map_cons, List.nodup_cons] at h
      by_cases hp : p.1 = k
      · rw [pySet, if_pos hp]
        simp only [List.map_cons, List.nodup_cons]
        exact ⟨by rw [← hp]; exact h.1, h.2⟩
      · rw [pySet, if_neg hp]
        simp only [List.map_cons, List.nodup_cons]
        refine ⟨?_, ih h.2⟩
        intro hmem
        rcases (pySet_map_fst_mem ps k p.1 v).1 hmem with h1 | h1
        · exact hp h1
        · exact h.1 h1

theorem pyGet_of_mem_nodup {α : Type} (d : List (String × α)) (k : String) (v : α)
    (hmem : (k, v) ∈ d) (h : (d.map Prod.fst).Nodup) : pyGet d k = some v := by
  induction d with
  | nil => simp at hmem
  | cons p ps ih =>
      simp only [List.map_cons, List.nodup_cons] at h
      rcases List.mem_cons.1 hmem with h1 | h1
      · rw [← h1]
        simp [pyGet]
      · rw [pyGet]
        by_cases he : p.1 = k
        · exfalso
          apply h.1
          rw [he]
          exact List.mem_map.2 ⟨(k, v), h1, rfl⟩
        · rw [if_neg he]
          exact ih h1 h.2

theorem pyGet_isSome_of_mem {α : Type} (d : List (String × α)) (k : String) (v : α)
    (hmem : (k, v) ∈ d) : (pyGet d k).isSome = true := by
  induction d with
  | nil => simp at hmem
  | cons p ps ih =>
      rcases List.mem_cons.1 hmem with h1 | h1
      · rw [← h1]
        simp [pyGet]
      · rw [pyGet]
        by_cases he : p.1 = k
        · simp [he]
        · rw [if_neg he]
          exact ih h1

/-! ## Substring lemmas -/

theorem charListStarts_append (xs ys : List Char) : charListStarts xs (xs ++ ys) = true := by
  induction xs with
  | nil => simp [charListStarts]
  | cons c cs ih => simp [charListStarts, ih]

theorem charListInfix_self_append (xs ys : List Char) : charListInfix xs (xs ++ ys) = true := by
  cases xs with
  | nil =>
      cases ys with
      | nil => simp [charListInfix]
      | cons c t => simp [charListInfix, charListStarts]
  | cons x xs0 =>
      rw [List.cons_append, charListInfix]
      have h := charListStarts_append (x :: xs0) ys
      rw [List.cons_append] at h
      rw [h]
      simp

theorem charListInfix_cons (n t : List Char) (c : Char) (h : charListInfix n t = true) :
    charListInfix n (c :: t) = true := by
  rw [charListInfix, h]
  simp

theorem charListInfix_append_right (pre n t : List Char) (h : charListInfix n t = true) :
    charListInfix n (pre ++ t) = true := by
  induction pre with
  | nil => simpa using h
  | cons c cs ih => exact charListInfix_cons n (cs ++ t) c ih

theorem string_toList_append (s t : String) : (s ++ t).toList = s.toList ++ t.toList := by
  simp [String.toList, String.data_append]

theorem pyInStr_append_mid (a x b : String) : pyInStr x (a ++ (x ++ b)) = true := by
  rw [pyInStr, string_toList_append, string_toList_append]
  exact charListInfix_append_right _ _ _ (charListInfix_self_append _ _)

theorem pyJoin_mem_split (sep : String) (l : List String) (x : String) (h : x ∈ l) :
    ∃ a b, pyJoin sep l = a ++ (x ++ b) := by
  induction l with
  | nil => simp at h
  | cons y ys ih =>
      cases ys with
      | nil =>
          rcases List.mem_cons.1 h with h1 | h1
          · subst h1
            exact ⟨"", "", by simp [pyJoin]⟩
          · simp at h1
      | cons z zs =>
          rcases List.mem_cons.1 h with h1 | h1
          · subst h1
            refine ⟨"", sep ++ pyJoin sep (z :: zs), ?_⟩
            rw [pyJoin]
            rw [String.append_assoc]
            simp
          · rcases ih h1 with ⟨a, b, hab⟩
            refine ⟨y ++ sep ++ a, b, ?_⟩
            rw [pyJoin, hab]
            rw [String.append_assoc, String.append_assoc, String.append_assoc]

theorem pyInStr_join_mem (c sep : String) (l : List String) (x : String) (h : x ∈ l) :
    pyInStr x (c ++ pyJoin sep l) = true := by
  rcases pyJoin_mem_split sep l x h with ⟨a, b, hab⟩
  rw [hab, ← String.append_assoc]
  exact pyInStr_append_mid (c ++ a) x b

/-! ## Claims -/

/-- Spec-side formula for the tool version: first 16 hex characters of the
SHA-256 of the canonical JSON (keys sorted, UTF-8, non-ASCII unescaped) of
the object built from the six declarative fields, tags sorted. -/
def toolVersionSpec (name description : String) (parameters : Json) (server_id : String)
    (category : Option String) (tags : List String) : String :=
  let canonical := jsonDumpsSorted (Json.obj
    [("name", Json.str name), ("description", Json.str description),
     ("parameters", parameters), ("server_id", Json.str server_id),
     ("category", optStrJson category),
     ("tags", Json.arr ((if tags.isEmpty then [] else sortStrings tags).map Json.str))])
  (bytesToHex (sha256 (utf8Encode canonical))).take 16

/-- C2: `tool_version` is exactly the first 16 hex characters of the SHA-256
of the canonical JSON of `{name, description, parameters, server_id,
category, tags sorted}`, and is therefore a pure function of those six
fields: two `ToolInfo`s agreeing on them produce identical versions. -/
theorem c2_tool_version_canonical :
    (∀ t : ToolInfo, generate_tool_version t =
        toolVersionSpec t.name t.description t.parameters t.server_id t.category t.tags) ∧
    (∀ t1 t2 : ToolInfo, t1.name = t2.name → t1.description = t2.description →
        t1.parameters = t2.parameters → t1.server_id = t2.server_id →
        t1.category = t2.category → t1.tags = t2.tags →
        generate_tool_version t1 = generate_tool_version t2) := by
  constructor
  · intro t
    rfl
  · intro t1 t2 h1 h2 h3 h4 h5 h6
    unfold generate_tool_version toolVersionData
    rw [h1, h2, h3, h4, h5, h6]

/-- Two tools equal in the six hashed fields, differing in `server_url`. -/
def c2ToolA : ToolInfo :=
  { name := "get_time", description := "当前时间", server_id := "time_server",
    server_url := "http://t1", parameters := Json.obj [("type", Json.str "object")],
    category := some "system", tags := ["time", "clock"] }

/-- The same tool as served from another URL. -/
def c2ToolB : ToolInfo := { c2ToolA with server_url := "http://t2" }

/-- C2 witness: the version ignores `server_url`. -/
theorem c2_tool_version_canonical_witness :
    c2ToolA.server_url ≠ c2ToolB.server_url ∧
    generate_tool_version c2ToolA = generate_tool_version c2ToolB :=
  ⟨by decide, c2_tool_version_canonical.2 c2ToolA c2ToolB rfl rfl rfl rfl rfl rfl⟩

/-- A server record as `_init_server_session` starts with it. -/
def c4Server : MCPServer := mkMCPServer "srv" "http://s" "http" []

/-- C4 counterexample: an initialize reply with error code `-32601` and
message `"method not found"` is reported as a failure (not a no-op success),
and the synthesized description is `"MCP服务器: srv"`, not `"MCP server: srv"`. -/
theorem c4_counterexample :
    (init_server_session c4Server (InitResponse.rpcError (some (-32601)) "method not found")).1
      = false ∧
    (init_server_session c4Server (InitResponse.rpcError (some (-32601)) "method not found")).2.description
      = some "MCP服务器: srv" ∧
    ("MCP服务器: srv" : String) ≠ "MCP server: " ++ "srv" := by
  refine ⟨?_, ?_, ?_⟩ <;> decide

/-- C4 amended: an initialize error reply is treated as a no-op success
exactly when (code = -32601 and the message contains `"未知方法"`) or the
message contains `"Method not found"` (the source's `and`/`or` precedence);
in every error case the unset descriptive fields are synthesized as
`name = id`, `description = "MCP服务器: " + id`. -/
theorem c4_init_error_handling (server : MCPServer) (code : Option Int) (msg : String) :
    init_server_session server (InitResponse.rpcError code msg) =
      ((code == some (-32601) && pyInStr "未知方法" msg) || pyInStr "Method not found" msg,
       set_default_server_info server) ∧
    (optStrTruthy server.name = false → (set_default_server_info server).name = some server.id) ∧
    (optStrTruthy server.description = false →
      (set_default_server_info server).description = some ("MCP服务器: " ++ server.id)) := by
  refine ⟨?_, ?_, ?_⟩
  · cases hcond : ((code == some (-32601) && pyInStr "未知方法" msg) || pyInStr "Method not found" msg) with
    | true => simp [init_server_session, hcond]
    | false => simp [init_server_session, hcond]
  · intro h
    simp [set_default_server_info, h]
  · intro h
    simp [set_default_server_info, h]

/-- C4 witness: a `-32601` reply whose message contains `"未知方法"` is a
no-op success, and the defaults are synthesized from the id. -/
theorem c4_init_error_handling_witness :
    (init_server_session c4Server (InitResponse.rpcError (some (-32601)) "未知方法: initialize")).1
      = true ∧
    (set_default_server_info c4Server).name = some "srv" ∧
    (set_default_server_info c4Server).description = some "MCP服务器: srv" := by
  refine ⟨?_, ?_, ?_⟩
  · rw [(c4_init_error_handling c4Server (some (-32601)) "未知方法: initialize").1]
    decide
  · exact (c4_init_error_handling c4Server (some (-32601)) "x").2.1 (by decide)
  · exact (c4_init_error_handling c4Server (some (-32601)) "x").2.2 (by decide)

/-- The `read_file` tool of scenario 1. -/
def c5Tool : ToolInfo :=
  { name := "read_file", description := "读取文件内容", server_id := "A",
    server_url := "http://a",
    parameters := Json.obj
      [("type", Json.str "object"),
       ("properties", Json.obj
          [("path", Json.obj [("type", Json.str "string"), ("description", Json.str "文件路径")])]),
       ("required", Json.arr [Json.str "path"])],
    category := none, tags := [] }

/-- The owning server of scenario 1. -/
def c5Server : MCPServer :=
  { mkMCPServer "A" "http://a" "http" [] with
      name := some "A", description := some "MCP服务器: A" }

/-- C5 counterexample: the search text of an indexed `read_file` tool does
not contain the literal `"tool name: read_file"` (the labels are Chinese). -/
theorem c5_counterexample :
    (build_search_text c5Tool c5Server).isSome = true ∧
    pyInStr "tool name: read_file" ((build_search_text c5Tool c5Server).getD "") = false := by
  refine ⟨?_, ?_⟩ <;> decide

/-- C5 amended: the search text is the fixed, ordered concatenation of
labelled lines `工具名称/工具描述/服务器名称/服务器描述`, then optional
`类别`, `标签` and `参数` lines; for an indexed `read_file` tool it contains
the literal `"工具名称: read_file"`. -/
theorem c5_search_text_labels :
    (∀ (t : ToolInfo) (s : MCPServer) (lines : List String),
       searchTextParamPart t.parameters = some lines →
       build_search_text t s = some (pyJoin "\n"
         (["工具名称: " ++ t.name, "工具描述: " ++ t.description,
           "服务器名称: " ++ pyFStrOptStr s.name, "服务器描述: " ++ pyFStrOptStr s.description] ++
          (if optStrTruthy t.category then ["类别: " ++ t.category.getD ""] else []) ++
          (if t.tags.isEmpty then [] else ["标签: " ++ pyJoin ", " t.tags]) ++ lines))) ∧
    pyInStr "工具名称: read_file" ((build_search_text c5Tool c5Server).getD "") = true := by
  constructor
  · intro t s lines h
    rw [build_search_text, h]
    simp [List.append_assoc]
  · decide

/-- C5 witness: the structural description evaluated at the scenario-1 tool. -/
theorem c5_search_text_labels_witness :
    build_search_text c5Tool c5Server = some (pyJoin "\n"
      (["工具名称: " ++ c5Tool.name, "工具描述: " ++ c5Tool.description,
        "服务器名称: " ++ pyFStrOptStr c5Server.name,
        "服务器描述: " ++ pyFStrOptStr c5Server.description] ++
       (if optStrTruthy c5Tool.category then ["类别: " ++ c5Tool.category.getD ""] else []) ++
       (if c5Tool.tags.isEmpty then [] else ["标签: " ++ pyJoin ", " c5Tool.tags]) ++
       ["参数: path: 文件路径"])) :=
  c5_search_text_labels.1 c5Tool c5Server ["参数: path: 文件路径"] (by decide)

/-- A registry with one server `s` and an empty `tools_by_id`. -/
def c6St : ManagerState :=
  { servers := [("s", mkMCPServer "s" "http://s" "http" [])],
    tools := [], tools_cache := [], cache_timestamps := [] }

/-- C6 counterexample: `(s, foo)` is not in `tools_by_id`, yet the dispatcher
forwards `s_foo` upstream instead of rejecting it. -/
theorem c6_counterexample :
    pyContains c6St.tools (toolKey "s" "foo") = false ∧
    tool_node_dispatch (c6St.servers.map Prod.fst) "s_foo" =
      DispatchOutcome.upstreamCall "s" "foo" := by
  refine ⟨?_, ?_⟩ <;> decide

/-- C6 amended: the dispatcher never consults `tools_by_id`; a name that
parses as `<registered server id>_<rest>` is forwarded upstream, and only a
name that fails that parse is rejected before any upstream contact, with a
message naming the tool and the registered server ids. -/
theorem c6_dispatch_no_tools_check (serverIds : List String) (toolName : String)
    (h : toolName ≠ "get_mcp_server_tools") :
    (∀ sid rest, matchServerTool (sortIdsByLenDesc serverIds) toolName = some (sid, rest) →
       sid ≠ "" → rest ≠ "" →
       tool_node_dispatch serverIds toolName = DispatchOutcome.upstreamCall sid rest) ∧
    (matchServerTool (sortIdsByLenDesc serverIds) toolName = none →
       tool_node_dispatch serverIds toolName =
         DispatchOutcome.rejected (unknownToolMessage toolName serverIds)) ∧
    pyInStr toolName (unknownToolMessage toolName serverIds) = true ∧
    (∀ sid ∈ serverIds, pyInStr sid (unknownToolMessage toolName serverIds) = true) := by
  refine ⟨?_, ?_, ?_, ?_⟩
  · intro sid rest hm hs hr
    rw [tool_node_dispatch, if_neg (by simpa using h), hm]
    have hs2 : sid.isEmpty = false := by
      cases hh : sid.isEmpty
      · rfl
      · exact absurd ((String.isEmpty_iff _).mp hh) hs
    have hr2 : rest.isEmpty = false := by
      cases hh : rest.isEmpty
      · rfl
      · exact absurd ((String.isEmpty_iff _).mp hh) hr
    simp [hs2, hr2]
  · intro hm
    rw [tool_node_dispatch, if_neg (by simpa using h), hm]
  · rw [unknownToolMessage]
    rw [show "错误: 无法识别工具名称 " ++ toolName ++
          "。工具名称格式应为 server_id_tool_name（例如：file_server_read_file）。可用的服务器ID：" ++
          pyJoin ", " serverIds =
        "错误: 无法识别工具名称 " ++ (toolName ++
          ("。工具名称格式应为 server_id_tool_name（例如：file_server_read_file）。可用的服务器ID：" ++
          pyJoin ", " serverIds)) from by
      rw [String.append_assoc, String.append_assoc]]
    exact pyInStr_append_mid _ _ _
  · intro sid hsid
    rw [unknownToolMessage]
    rw [show "错误: 无法识别工具名称 " ++ toolName ++
          "。工具名称格式应为 server_id_tool_name（例如：file_server_read_file）。可用的服务器ID：" ++
          pyJoin ", " serverIds =
        ("错误: 无法识别工具名称 " ++ toolName ++
          "。工具名称格式应为 server_id_tool_name（例如：file_server_read_file）。可用的服务器ID：") ++
          pyJoin ", " serverIds from rfl]
    exact pyInStr_join_mem _ ", " serverIds sid hsid

/-- C6 witness: an unparseable name is rejected with a message naming the
tool and the available server ids. -/
theorem c6_dispatch_no_tools_check_witness :
    tool_node_dispatch ["file_server", "time_server"] "frobnicate" =
      DispatchOutcome.rejected (unknownToolMessage "frobnicate" ["file_server", "time_server"]) ∧
    pyInStr "frobnicate" (unknownToolMessage "frobnicate" ["file_server", "time_server"]) = true ∧
    pyInStr "time_server" (unknownToolMessage "frobnicate" ["file_server", "time_server"]) = true := by
  have h := c6_dispatch_no_tools_check ["file_server", "time_server"] "frobnicate" (by decide)
  exact ⟨h.2.1 (by decide), h.2.2.1, h.2.2.2 "time_server" (by decide)⟩

/-- A streamable server holding the session `xyz`. -/
def c8Server : MCPServer :=
  { mkMCPServer "b" "http://b" "streamable_http" [] with session_id := some "xyz" }

/-- C8: for a session-requiring server, both the `tools/call` path and the
`tools/list` path emit only requests that carry the session header or are
preceded by a bootstrap attempt within the same operation. -/
theorem c8_session_or_bootstrap (s : MCPServer) (afterCall : Option String)
    (bootOK : Bool) (afterList : Option String) (h : s.requires_session = true) :
    sessionSafe (call_tool_trace s afterCall) = true ∧
    sessionSafe (discover_list_trace s bootOK afterList) = true := by
  constructor
  · rw [call_tool_trace]
    by_cases ht : optStrTruthy s.session_id
    · simp [h, ht, sessionSafe, sessionSafeFrom, hasSessionHeader, pyContains_pySet_self]
    · simp [h, ht, sessionSafe, sessionSafeFrom]
  · rw [discover_list_trace]
    by_cases ht : optStrTruthy s.session_id
    · simp only [h, ht, Bool.not_true, Bool.and_false, Bool.false_eq_true, if_false,
        Bool.true_and]
      simp [sessionSafe, sessionSafeFrom, hasSessionHeader, get_request_headers, h, ht,
        pyContains_pySet_self]
    · cases bootOK <;>
        simp [h, ht, sessionSafe, sessionSafeFrom]
  
/-- C8 witness: concrete traces for a streamable server with and without a
session in hand. -/
theorem c8_session_or_bootstrap_witness :
    c8Server.requires_session = true ∧
    sessionSafe (call_tool_trace c8Server none) = true ∧
    sessionSafe (discover_list_trace c8Server true (some "s1")) = true :=
  ⟨rfl, (c8_session_or_bootstrap c8Server none true (some "s1") rfl).1,
    (c8_session_or_bootstrap c8Server none true (some "s1") rfl).2⟩

/-- A registry with one healthy server `s` and an available listing. -/
def c10Env : DiscoverEnv :=
  { health := fun _ => true, bootstrapOK := fun _ => true,
    listing := fun _ => some [{ name := "read_file", description := "", parameters := Json.obj [] }] }

/-- A state whose only server key is `"s"`. -/
def c10St : ManagerState :=
  { servers := [("s", mkMCPServer "s" "http://a" "http" [])],
    tools := [], tools_cache := [], cache_timestamps := [] }

/-- C10 counterexample: the empty string is not a key of the servers map,
yet `discover_tools("")` discovers every server (Python truthiness routes it
to the all-servers branch) and writes the cache timestamps. -/
theorem c10_counterexample :
    pyContains c10St.servers "" = false ∧
    (discover_tools c10Env c10St 0 (some "") false).1.map Prod.fst = ["s"] ∧
    (discover_tools c10Env c10St 0 (some "") false).2.cache_timestamps = [("s", 0)] := by
  refine ⟨?_, ?_, ?_⟩ <;> decide

/-- C10 amended: for every non-empty `server_id` that is not a key of the
servers map, `discover_tools` returns an empty mapping and leaves the state
(tools map, per-server cache, timestamps) untouched. -/
theorem c10_unknown_id_no_tools (env : DiscoverEnv) (st : ManagerState) (now : Nat)
    (sid : String) (force : Bool) (h1 : sid ≠ "") (h2 : pyContains st.servers sid = false) :
    discover_tools env st now (some sid) force = ([], st) := by
  rw [discover_tools]
  have ht : optStrTruthy (some sid) = true := by
    simp [optStrTruthy, h1]
  rw [if_pos (by rw [ht]; simp [h2])]

/-- C10 witness: an unknown (non-empty) id yields an empty result and
unchanged state. -/
theorem c10_unknown_id_no_tools_witness :
    discover_tools c10Env c10St 0 (some "zzz") false = ([], c10St) :=
  c10_unknown_id_no_tools c10Env c10St 0 "zzz" false (by decide) (by decide)

/-- Membership in a fold of Python dict insertions. -/
theorem foldl_pySet_contains {α : Type} (key : α → String) (ts : List α)
    (m : List (String × α)) (k : String) :
    pyContains (ts.foldl (fun m t => pySet m (key t) t) m) k =
      (pyContains m k || ts.any (fun t => key t == k)) := by
  induction ts generalizing m with
  | nil => simp
  | cons t ts ih =>
      rw [List.foldl_cons, ih, List.any_cons]
      by_cases h : key t = k
      · rw [h]
        simp [pyContains_pySet_self]
      · have : pyContains (pySet m (key t) t) k = pyContains m k := by
          simp [pyContains, pyGet_pySet_ne m (key t) k t (Ne.symm h)]
        rw [this]
        have hb : (key t == k) = false := by
          simp [h]
        rw [hb]
        simp

/-- The old server `s` once exposed tool `old`. -/
def c3Old : ToolInfo :=
  { name := "old", description := "", server_id := "s", server_url := "http://s",
    parameters := Json.obj [], category := none, tags := [] }

/-- The server the discovery runs against. -/
def c3Server : MCPServer := mkMCPServer "s" "http://s" "http" []

/-- A state still holding `s:old` in `tools_by_id`. -/
def c3St : ManagerState :=
  { servers := [("s", c3Server)], tools := [("s:old", c3Old)],
    tools_cache := [], cache_timestamps := [] }

/-- An environment whose fresh listing for `s` contains only `new`. -/
def c3Env : DiscoverEnv :=
  { health := fun _ => true, bootstrapOK := fun _ => true,
    listing := fun _ => some [{ name := "new", description := "", parameters := Json.obj [] }] }

/-- C3 counterexample: after a successful discovery whose fresh listing for
server `s` is exactly `[new]`, the stale id `s:old` is still present in
`tools_by_id` (the source never removes entries). -/
theorem c3_counterexample :
    (discover_tools_from_server c3Env c3St c3Server).map (fun r => r.1.map ToolInfo.name)
      = some ["new"] ∧
    (discover_tools_from_server c3Env c3St c3Server).map
        (fun r => pyContains r.2.tools (toolKey "s" "old")) = some true := by
  refine ⟨?_, ?_⟩ <;> decide

/-- C3 amended: a successful discovery updates `tools_by_id` by inserting
every freshly discovered tool under its `server_id:name` key; pre-existing
keys are never removed — the keys afterwards are exactly the old keys plus
the fresh ones. -/
theorem c3_tools_map_insert_only (env : DiscoverEnv) (st : ManagerState) (server : MCPServer)
    (tools : List ToolInfo) (st2 : ManagerState)
    (h : discover_tools_from_server env st server = some (tools, st2)) :
    (∀ k, pyContains st.tools k = true → pyContains st2.tools k = true) ∧
    (∀ t ∈ tools, pyContains st2.tools (toolKey server.id t.name) = true) ∧
    (∀ k, pyContains st2.tools k = true →
       pyContains st.tools k = true ∨ k ∈ tools.map (fun t => toolKey server.id t.name)) := by
  rw [discover_tools_from_server] at h
  split at h
  · exact absurd h (by simp)
  · cases hl : env.listing server.id with
    | none =>
        rw [hl] at h
        exact absurd h (by simp)
    | some tds =>
        rw [hl] at h
        simp only [Option.some.injEq, Prod.mk.injEq] at h
        obtain ⟨htools, hst⟩ := h
        have hkeys : ∀ k, pyContains st2.tools k =
            (pyContains st.tools k || tools.any (fun t => toolKey server.id t.name == k)) := by
          intro k
          rw [← hst, ← htools]
          exact foldl_pySet_contains (fun t => toolKey server.id t.name) _ st.tools k
        refine ⟨?_, ?_, ?_⟩
        · intro k hk
          rw [hkeys, hk]
          simp
        · intro t htm
          rw [hkeys]
          have ha : tools.any (fun t2 => toolKey server.id t2.name == toolKey server.id t.name)
              = true :=
            List.any_eq_true.2 ⟨t, htm, by simp⟩
          rw [ha]
          simp
        · intro k hk
          rw [hkeys] at hk
          rcases Bool.or_eq_true_iff.1 hk with h1 | h1
          · exact Or.inl h1
          · rcases List.any_eq_true.1 h1 with ⟨t, htm, hbeq⟩
            exact Or.inr (List.mem_map.2 ⟨t, htm, by simpa using hbeq⟩)

/-- C3 witness: after the concrete discovery, the stale key survives. -/
theorem c3_tools_map_insert_only_witness :
    pyContains ((discover_tools_from_server c3Env c3St c3Server).getD ([], c3St)).2.tools
      "s:old" = true :=
  (c3_tools_map_insert_only c3Env c3St c3Server _ _ rfl).1 "s:old" (by decide)

/-- The scenario-6 tools/call reply: one text content item holding
`"{\"k\":1}"`. -/
def c9Reply : Json :=
  Json.obj [("result", Json.obj [("content", Json.arr
    [Json.obj [("type", Json.str "text"), ("text", Json.str "\x7b\"k\":1\x7d")]])])]

/-- C9: for a reply without an error whose `result.content` is a non-empty
list whose first element carries a string `text`, the dispatcher returns the
2-space pretty JSON of the parsed text when it parses, the raw text
otherwise; for content text `{"k":1}` the result is the pretty-printed
`{\n  "k": 1\n}`. -/
theorem c9_content_normalisation :
    (∀ (fs rfs xfs : List (String × Json)) (t : String) (rest : List Json),
       pyGet fs "error" = none →
       pyGet fs "result" = some (Json.obj rfs) →
       pyGet rfs "content" = some (Json.arr (Json.obj xfs :: rest)) →
       pyGet xfs "text" = some (Json.str t) →
       call_tool_reply_format (Json.obj fs) =
         (match pyLoads t with
          | some v => jsonDumpsIndent2 v
          | none => t)) ∧
    call_tool_reply_format c9Reply = "\x7b\n  \"k\": 1\n\x7d" := by
  constructor
  · intro fs rfs xfs t rest he hr hc ht
    rw [call_tool_reply_format, he, hr]
    simp only [Option.getD_some]
    rw [format_result, hc]
    show (match (pyGet xfs "text").getD (Json.str "") with
          | Json.str u => (match pyLoads u with | some v => jsonDumpsIndent2 v | none => u)
          | other => "错误: the JSON object must be str, bytes or bytearray, not " ++
              pyTypeName other)
        = (match pyLoads t with | some v => jsonDumpsIndent2 v | none => t)
    rw [ht]
    rfl
  · decide

/-- C9 witness: a text item that is not JSON comes back verbatim. -/
theorem c9_content_normalisation_witness :
    call_tool_reply_format (Json.obj [("result", Json.obj [("content", Json.arr
      [Json.obj [("text", Json.str "hello")]])])]) = "hello" := by
  have h := c9_content_normalisation.1
    [("result", Json.obj [("content", Json.arr [Json.obj [("text", Json.str "hello")]])])]
    [("content", Json.arr [Json.obj [("text", Json.str "hello")]])]
    [("text", Json.str "hello")] "hello" [] rfl rfl rfl rfl
  rw [h]
  decide

/-- A successful per-server discovery leaves both cache maps untouched. -/
theorem discover_tools_from_server_cache (env : DiscoverEnv) (st : ManagerState)
    (server : MCPServer) (r : List ToolInfo × ManagerState)
    (h : discover_tools_from_server env st server = some r) :
    r.2.tools_cache = st.tools_cache ∧ r.2.cache_timestamps = st.cache_timestamps := by
  rw [discover_tools_from_server] at h
  split at h
  · exact absurd h (by simp)
  · cases hl : env.listing server.id with
    | none =>
        rw [hl] at h
        exact absurd h (by simp)
    | some tds =>
        rw [hl] at h
        simp only [Option.some.injEq] at h
        rw [← h]
        exact ⟨rfl, rfl⟩

/-- Every key of the discovery result was either already accumulated or
belongs to a server that passed its health probe. -/
theorem discover_loop_keys (env : DiscoverEnv) (now : Nat) (force : Bool) :
    ∀ (targets : List MCPServer) (acc : List (String × List ToolInfo)) (st : ManagerState)
      (k : String),
      k ∈ (discover_loop env now force targets acc st).1.map Prod.fst →
      k ∈ acc.map Prod.fst ∨ env.health k = true := by
  intro targets
  induction targets with
  | nil =>
      intro acc st k h
      rw [discover_loop] at h
      exact Or.inl h
  | cons s rest ih =>
      intro acc st k h
      rw [discover_loop] at h
      by_cases he : (!s.enabled) = true
      · rw [if_pos he] at h
        exact ih acc st k h
      · rw [if_neg he] at h
        by_cases hh : (!env.health s.id) = true
        · rw [if_pos hh] at h
          exact ih acc _ k h
        · rw [if_neg hh] at h
          have hht : env.health s.id = true := by
            cases hx : env.health s.id
            · rw [hx] at hh
              simp at hh
            · rfl
          by_cases hc : (!force && is_cache_valid st now s.id) = true
          · rw [if_pos hc] at h
            rcases ih _ st k h with h1 | h1
            · rcases (pySet_map_fst_mem acc s.id k _).1 h1 with h2 | h2
              · rw [h2]
                exact Or.inr hht
              · exact Or.inl h2
            · exact Or.inr h1
          · rw [if_neg hc] at h
            cases hd : discover_tools_from_server env st s with
            | none =>
                rw [hd] at h
                exact ih acc st k h
            | some r =>
                obtain ⟨tools, st2⟩ := r
                rw [hd] at h
                rcases ih _ _ k h with h1 | h1
                · rcases (pySet_map_fst_mem acc s.id k _).1 h1 with h2 | h2
                  · rw [h2]
                    exact Or.inr hht
                  · exact Or.inl h2
                · exact Or.inr h1

/-- Once an unhealthy server's cache entries are gone and its key is not
accumulated, the rest of the loop never brings them back. -/
theorem discover_loop_keeps_evicted (env : DiscoverEnv) (now : Nat) (force : Bool) :
    ∀ (targets : List MCPServer) (acc : List (String × List ToolInfo)) (st : ManagerState)
      (k : String),
      env.health k = false →
      pyGet st.tools_cache k = none →
      pyGet st.cache_timestamps k = none →
      k ∉ acc.map Prod.fst →
      pyGet (discover_loop env now force targets acc st).2.tools_cache k = none ∧
      pyGet (discover_loop env now force targets acc st).2.cache_timestamps k = none ∧
      k ∉ (discover_loop env now force targets acc st).1.map Prod.fst := by
  intro targets
  induction targets with
  | nil =>
      intro acc st k hk h1 h2 h3
      rw [discover_loop]
      exact ⟨h1, h2, h3⟩
  | cons s rest ih =>
      intro acc st k hk h1 h2 h3
      rw [discover_loop]
      by_cases he : (!s.enabled) = true
      · rw [if_pos he]
        exact ih acc st k hk h1 h2 h3
      · rw [if_neg he]
        by_cases hh : (!env.health s.id) = true
        · rw [if_pos hh]
          exact ih _ _ k hk (pyGet_pyDel_of_none _ _ _ h1) (pyGet_pyDel_of_none _ _ _ h2) h3
        · rw [if_neg hh]
          have hht : env.health s.id = true := by
            cases hx : env.health s.id
            · rw [hx] at hh
              simp at hh
            · rfl
          have hne : s.id ≠ k := by
            intro heq
            rw [heq, hk] at hht
            exact absurd hht (by simp)
          by_cases hc : (!force && is_cache_valid st now s.id) = true
          · rw [if_pos hc]
            apply ih _ st k hk h1 h2
            intro hmem
            rcases (pySet_map_fst_mem acc s.id k _).1 hmem with h4 | h4
            · exact hne h4.symm
            · exact h3 h4
          · rw [if_neg hc]
            cases hd : discover_tools_from_server env st s with
            | none => exact ih acc st k hk h1 h2 h3
            | some r =>
                obtain ⟨tools, st2⟩ := r
                have hcache := discover_tools_from_server_cache env st s (tools, st2) hd
                refine ih _ _ k hk ?_ ?_ ?_
                · show pyGet (pySet st2.tools_cache s.id tools) k = none
                  rw [pyGet_pySet_ne st2.tools_cache s.id k tools (Ne.symm hne), hcache.1]
                  exact h1
                · show pyGet (pySet st2.cache_timestamps s.id now) k = none
                  rw [pyGet_pySet_ne st2.cache_timestamps s.id k now (Ne.symm hne), hcache.2]
                  exact h2
                · intro hmem
                  rcases (pySet_map_fst_mem acc s.id k _).1 hmem with h4 | h4
                  · exact hne h4.symm
                  · exact h3 h4

/-- An enabled target failing its health probe ends the loop with its cache
entries evicted and no tools of its id in the result. -/
theorem discover_loop_evicts (env : DiscoverEnv) (now : Nat) (force : Bool) :
    ∀ (targets : List MCPServer) (acc : List (String × List ToolInfo)) (st : ManagerState)
      (s : MCPServer),
      s ∈ targets → s.enabled = true → env.health s.id = false →
      (st.tools_cache.map Prod.fst).Nodup →
      (st.cache_timestamps.map Prod.fst).Nodup →
      s.id ∉ acc.map Prod.fst →
      pyGet (discover_loop env now force targets acc st).2.tools_cache s.id = none ∧
      pyGet (discover_loop env now force targets acc st).2.cache_timestamps s.id = none ∧
      s.id ∉ (discover_loop env now force targets acc st).1.map Prod.fst := by
  intro targets
  induction targets with
  | nil =>
      intro acc st s hmem
      simp at hmem
  | cons t rest ih =>
      intro acc st s hmem hen hhe hnd1 hnd2 hacc
      rw [discover_loop]
      rcases List.mem_cons.1 hmem with heq | hmem2
      · subst heq
        rw [if_neg (by rw [hen]; simp)]
        rw [if_pos (by rw [hhe]; simp)]
        exact discover_loop_keeps_evicted env now force rest acc _ s.id hhe
          (pyGet_pyDel_self_nodup _ _ hnd1) (pyGet_pyDel_self_nodup _ _ hnd2) hacc
      · by_cases he : (!t.enabled) = true
        · rw [if_pos he]
          exact ih acc st s hmem2 hen hhe hnd1 hnd2 hacc
        · rw [if_neg he]
          by_cases hh : (!env.health t.id) = true
          · rw [if_pos hh]
            exact ih acc _ s hmem2 hen hhe (pyDel_nodup _ _ hnd1) (pyDel_nodup _ _ hnd2) hacc
          · rw [if_neg hh]
            have hht : env.health t.id = true := by
              cases hx : env.health t.id
              · rw [hx] at hh
                simp at hh
              · rfl
            have hne : t.id ≠ s.id := by
              intro heq2
              rw [heq2, hhe] at hht
              exact absurd hht (by simp)
            by_cases hc : (!force && is_cache_valid st now t.id) = true
            · rw [if_pos hc]
              refine ih _ st s hmem2 hen hhe hnd1 hnd2 ?_
              intro hmem3
              rcases (pySet_map_fst_mem acc t.id s.id _).1 hmem3 with h4 | h4
              · exact hne h4.symm
              · exact hacc h4
            · rw [if_neg hc]
              cases hd : discover_tools_from_server env st t with
              | none => exact ih acc st s hmem2 hen hhe hnd1 hnd2 hacc
              | some r =>
                  obtain ⟨tools, st2⟩ := r
                  have hcache := discover_tools_from_server_cache env st t (tools, st2) hd
                  refine ih _ _ s hmem2 hen hhe ?_ ?_ ?_
                  · show ((pySet st2.tools_cache t.id tools).map Prod.fst).Nodup
                    rw [hcache.1]
                    exact pySet_nodup _ _ _ hnd1
                  · show ((pySet st2.cache_timestamps t.id now).map Prod.fst).Nodup
                    rw [hcache.2]
                    exact pySet_nodup _ _ _ hnd2
                  · intro hmem3
                    rcases (pySet_map_fst_mem acc t.id s.id _).1 hmem3 with h4 | h4
                    · exact hne h4.symm
                    · exact hacc h4

/-- C1: a `discover_tools` call returns tools only for servers whose health
probe passed during that call, and an enabled target failing the probe has
its cache entry and timestamp evicted and contributes nothing, cached or
fresh, to the result. -/
theorem c1_health_gates_discovery (env : DiscoverEnv) (st : ManagerState) (now : Nat)
    (server_id : Option String) (force : Bool)
    (hc : (st.tools_cache.map Prod.fst).Nodup)
    (ht : (st.cache_timestamps.map Prod.fst).Nodup) :
    (∀ k, k ∈ (discover_tools env st now server_id force).1.map Prod.fst →
       env.health k = true) ∧
    (∀ s ∈ discover_targets st server_id, s.enabled = true → env.health s.id = false →
       pyGet (discover_tools env st now server_id force).2.tools_cache s.id = none ∧
       pyGet (discover_tools env st now server_id force).2.cache_timestamps s.id = none ∧
       s.id ∉ (discover_tools env st now server_id force).1.map Prod.fst) := by
  rw [discover_tools]
  by_cases hg : (optStrTruthy server_id && !pyContains st.servers (server_id.getD "")) = true
  · rw [if_pos hg]
    constructor
    · intro k hk
      simp at hk
    · intro s hs
      exfalso
      rcases Bool.and_eq_true_iff.1 hg with ⟨hg1, hg2⟩
      rw [discover_targets, if_pos hg1] at hs
      cases hget : pyGet st.servers (server_id.getD "") with
      | none =>
          rw [hget] at hs
          simp at hs
      | some v =>
          rw [pyContains, hget] at hg2
          simp at hg2
  · rw [if_neg hg]
    constructor
    · intro k hk
      rcases discover_loop_keys env now force _ [] st k hk with h | h
      · simp at h
      · exact h
    · intro s hs hen hhe
      exact discover_loop_evicts env now force _ [] st s hs hen hhe hc ht (by simp)

/-- The stale cached tool of the unhealthy scenario-5 server. -/
def c1Tool : ToolInfo :=
  { name := "read_file", description := "读取文件", server_id := "a", server_url := "http://a",
    parameters := Json.obj [], category := none, tags := [] }

/-- The scenario-5 server `a`. -/
def c1Server : MCPServer := mkMCPServer "a" "http://a" "http" []

/-- A state with a valid cache entry for `a` from an earlier discovery. -/
def c1St : ManagerState :=
  { servers := [("a", c1Server)], tools := [("a:read_file", c1Tool)],
    tools_cache := [("a", [c1Tool])], cache_timestamps := [("a", 100)] }

/-- An environment in which `a` is down. -/
def c1Env : DiscoverEnv :=
  { health := fun _ => false, bootstrapOK := fun _ => false, listing := fun _ => none }

/-- C1 witness: discovering while `a` is down returns nothing for `a` and
evicts its (previously valid) cache entry and timestamp. -/
theorem c1_health_gates_discovery_witness :
    pyGet (discover_tools c1Env c1St 200 none false).2.tools_cache "a" = none ∧
    pyGet (discover_tools c1Env c1St 200 none false).2.cache_timestamps "a" = none ∧
    "a" ∉ (discover_tools c1Env c1St 200 none false).1.map Prod.fst := by
  have h := (c1_health_gates_discovery c1Env c1St 200 none false (by decide) (by decide)).2
    c1Server (by rw [show discover_targets c1St none = [c1Server] from rfl]; simp)
    (by decide) (by decide)
  exact h

/-- Looking up the (id, version) projection after an upsert. -/
theorem storeUpsert_proj_get (store : List ToolDoc) (d : ToolDoc) (k : String) :
    pyGet ((storeUpsert store d).map (fun e => (e.tool_id, e.tool_version))) k =
      (if d.tool_id = k then some d.tool_version
       else pyGet (store.map (fun e => (e.tool_id, e.tool_version))) k) := by
  induction store with
  | nil =>
      by_cases h : d.tool_id = k <;> simp [storeUpsert, pyGet, h]
  | cons e es ih =>
      by_cases he : e.tool_id = d.tool_id
      · rw [storeUpsert, if_pos he]
        by_cases hk : d.tool_id = k
        · simp [pyGet, hk]
        · have hek : e.tool_id = k ↔ False := by
            constructor
            · intro hh
              exact hk (he ▸ hh)
            · exact False.elim
          simp [pyGet, hk, hek]
      · rw [storeUpsert, if_neg he]
        have hne : e.tool_id = k → ¬d.tool_id = k := by
          intro hh hdk
          exact he (hh.trans hdk.symm)
        by_cases hek : e.tool_id = k
        · simp [pyGet, hek, hne hek]
        · simp only [List.map_cons, pyGet, if_neg hek]
          exact ih

/-- Membership of ids after an upsert. -/
theorem storeUpsert_ids_mem (store : List ToolDoc) (d : ToolDoc) (k : String)
    (h : k ∈ (storeUpsert store d).map ToolDoc.tool_id) :
    k = d.tool_id ∨ k ∈ store.map ToolDoc.tool_id := by
  induction store with
  | nil =>
      simp [storeUpsert] at h
      exact Or.inl h
  | cons e es ih =>
      by_cases he : e.tool_id = d.tool_id
      · rw [storeUpsert, if_pos he] at h
        simp only [List.map_cons, List.mem_cons] at h ⊢
        tauto
      · rw [storeUpsert, if_neg he] at h
        simp only [List.map_cons, List.mem_cons] at h ⊢
        rcases h with h1 | h1
        · exact Or.inr (Or.inl h1)
        · rcases ih h1 with h2 | h2
          · exact Or.inl h2
          · exact Or.inr (Or.inr h2)

/-- An upsert keeps the ids duplicate-free. -/
theorem storeUpsert_ids_nodup (store : List ToolDoc) (d : ToolDoc)
    (h : (store.map ToolDoc.tool_id).Nodup) :
    ((storeUpsert store d).map ToolDoc.tool_id).Nodup := by
  induction store with
  | nil => simp [storeUpsert]
  | cons e es ih =>
      simp only [List.map_cons, List.nodup_cons] at h
      by_cases he : e.tool_id = d.tool_id
      · rw [storeUpsert, if_pos he]
        simp only [List.map_cons, List.nodup_cons]
        exact ⟨he ▸ h.1, h.2⟩
      · rw [storeUpsert, if_neg he]
        simp only [List.map_cons, List.nodup_cons]
        refine ⟨?_, ih h.2⟩
        intro hmem
        rcases storeUpsert_ids_mem es d e.tool_id hmem with h1 | h1
        · exact he h1
        · exact h.1 h1

/-- A batch of upserts keeps the ids duplicate-free. -/
theorem index_tools_batch_ids_nodup (docs : List ToolDoc) :
    ∀ (store : List ToolDoc), (store.map ToolDoc.tool_id).Nodup →
      ((index_tools_batch store docs).map ToolDoc.tool_id).Nodup := by
  induction docs with
  | nil => intro store h; exact h
  | cons d ds ih =>
      intro store h
      exact ih (storeUpsert store d) (storeUpsert_ids_nodup store d h)

/-- Folded dict insertions only depend on the base through lookups. -/
theorem foldl_pySet_get_congr {α β : Type} (key : β → String) (val : β → α) (l : List β) :
    ∀ (m1 m2 : List (String × α)) (k : String),
      pyGet m1 k = pyGet m2 k →
      pyGet (l.foldl (fun m x => pySet m (key x) (val x)) m1) k =
      pyGet (l.foldl (fun m x => pySet m (key x) (val x)) m2) k := by
  induction l with
  | nil => intro m1 m2 k h; exact h
  | cons x xs ih =>
      intro m1 m2 k h
      rw [List.foldl_cons, List.foldl_cons]
      apply ih
      by_cases hx : key x = k
      · rw [← hx, pyGet_pySet_self, pyGet_pySet_self]
      · rw [pyGet_pySet_ne _ _ _ _ (Ne.symm hx), pyGet_pySet_ne _ _ _ _ (Ne.symm hx)]
        exact h

/-- A key untouched by the folded insertions keeps its base binding. -/
theorem foldl_pySet_get_of_ne {α β : Type} (key : β → String) (val : β → α) (l : List β) :
    ∀ (m : List (String × α)) (k : String), (∀ x ∈ l, key x ≠ k) →
      pyGet (l.foldl (fun m x => pySet m (key x) (val x)) m) k = pyGet m k := by
  induction l with
  | nil => intro m k _; rfl
  | cons x xs ih =>
      intro m k h
      rw [List.foldl_cons]
      rw [ih _ k (fun y hy => h y (List.mem_cons_of_mem _ hy))]
      exact pyGet_pySet_ne _ _ _ _ (Ne.symm (h x (List.mem_cons_self x xs)))

/-- Folded dict insertions from a duplicate-free base keep keys
duplicate-free. -/
theorem foldl_pySet_keys_nodup {α β : Type} (key : β → String) (val : β → α) (l : List β) :
    ∀ (m : List (String × α)), (m.map Prod.fst).Nodup →
      ((l.foldl (fun m x => pySet m (key x) (val x)) m).map Prod.fst).Nodup := by
  induction l with
  | nil => intro m h; exact h
  | cons x xs ih =>
      intro m h
      rw [List.foldl_cons]
      exact ih _ (pySet_nodup m (key x) (val x) h)

/-- On a duplicate-free store, `get_tool_versions` agrees with the direct
(id, version) projection. -/
theorem get_tool_versions_eq_proj (store : List ToolDoc)
    (h : (store.map ToolDoc.tool_id).Nodup) (k : String) :
    pyGet (get_tool_versions store) k =
      pyGet (store.map (fun e => (e.tool_id, e.tool_version))) k := by
  induction store with
  | nil => rfl
  | cons d ds ih =>
      simp only [List.map_cons, List.nodup_cons] at h
      rw [get_tool_versions, List.foldl_cons]
      by_cases hk : d.tool_id = k
      · rw [foldl_pySet_get_of_ne (fun e => e.tool_id) (fun e => e.tool_version) ds _ k
          (fun x hx hc => h.1 (by rw [hk, ← hc]; exact List.mem_map.2 ⟨x, hx, rfl⟩))]
        simp [pySet, pyGet, hk]
      · have hbase : pyGet (pySet ([] : List (String × String)) d.tool_id d.tool_version) k =
            pyGet ([] : List (String × String)) k := by
          simp [pySet, pyGet, hk]
        rw [foldl_pySet_get_congr (fun e => e.tool_id) (fun e => e.tool_version) ds _ _ k hbase]
        rw [show (ds.foldl (fun m e => pySet m e.tool_id e.tool_version) []) =
              get_tool_versions ds from rfl]
        rw [ih h.2]
        simp [pyGet, hk]

/-- The id and version fields of a built document. -/
theorem build_tool_document_fields (t : ToolInfo) (s : MCPServer) (now : String) (d : ToolDoc)
    (h : build_tool_document t s now = some d) :
    d.tool_id = toolKey t.server_id t.name ∧ d.tool_version = generate_tool_version t := by
  rw [build_tool_document] at h
  cases hb : build_search_text t s with
  | none =>
      rw [hb] at h
      exact absurd h (by simp)
  | some text =>
      rw [hb] at h
      simp only [Option.map_some', Option.some.injEq] at h
      subst h
      exact ⟨by with_reducible rfl, by with_reducible rfl⟩

/-- Upserting the documents built for a tool list mirrors, binding for
binding, the fold that builds the current `{tool_id: version}` map. -/
theorem build_batch_versions (servers : List (String × MCPServer)) (now : String) :
    ∀ (ts : List ToolInfo) (ds : List ToolDoc) (store : List ToolDoc)
      (m : List (String × String)),
      buildDocsFor servers now ts = some ds →
      (∀ t ∈ ts, (pyGet servers t.server_id).isSome = true) →
      (∀ k, pyGet (store.map (fun e => (e.tool_id, e.tool_version))) k = pyGet m k) →
      ∀ k, pyGet ((index_tools_batch store ds).map (fun e => (e.tool_id, e.tool_version))) k =
        pyGet (ts.foldl (fun m t => pySet m (toolKey t.server_id t.name)
          (generate_tool_version t)) m) k := by
  intro ts
  induction ts with
  | nil =>
      intro ds store m hbd hp hbase k
      rw [buildDocsFor] at hbd
      simp only [Option.some.injEq] at hbd
      rw [← hbd]
      exact hbase k
  | cons t ts ih =>
      intro ds store m hbd hp hbase k
      rw [buildDocsFor] at hbd
      cases hg : pyGet servers t.server_id with
      | none =>
          have hps := hp t (List.mem_cons_self t ts)
          rw [hg] at hps
          simp at hps
      | some s =>
          rw [hg] at hbd
          have hbd2 : (match build_tool_document t s now with
              | none => none
              | some d => Option.map (fun ds => d :: ds) (buildDocsFor servers now ts)) =
              some ds := hbd
          cases hd : build_tool_document t s now with
          | none =>
              rw [hd] at hbd2
              exact absurd hbd2 (by simp)
          | some doc =>
              rw [hd] at hbd2
              cases hrest : buildDocsFor servers now ts with
              | none =>
                  rw [hrest] at hbd2
                  simp at hbd2
              | some ds2 =>
                  rw [hrest] at hbd2
                  simp only [Option.map_some', Option.some.injEq] at hbd2
                  rw [← hbd2]
                  rw [show index_tools_batch store (doc :: ds2) =
                        index_tools_batch (storeUpsert store doc) ds2 from rfl]
                  rw [List.foldl_cons]
                  apply ih ds2 _ _ hrest (fun x hx => hp x (List.mem_cons_of_mem _ hx))
                  intro k2
                  rw [storeUpsert_proj_get]
                  obtain ⟨hid, hver⟩ := build_tool_document_fields t s now doc hd
                  by_cases hk : doc.tool_id = k2
                  · rw [if_pos hk, hver, ← hk, hid, pyGet_pySet_self]
                  · rw [if_neg hk]
                    rw [pyGet_pySet_ne _ _ _ _ (fun hc : k2 = toolKey t.server_id t.name =>
                      hk (by rw [hid, ← hc]))]
                    exact hbase k2

/-- Tools of a discovery result come from some server's list. -/
theorem allToolsOf_mem (discovered : List (String × List ToolInfo)) (t : ToolInfo)
    (h : t ∈ allToolsOf discovered) : ∃ p ∈ discovered, t ∈ p.2 := by
  rw [allToolsOf] at h
  rcases List.mem_flatten.1 h with ⟨l, hl, ht⟩
  rcases List.mem_map.1 hl with ⟨p, hp, hpl⟩
  exact ⟨p, hp, hpl ▸ ht⟩

/-- When every stored version lookup agrees with the current version map,
the change detection classifies everything as unchanged. -/
theorem detect_no_changes (discovered : List (String × List ToolInfo)) (store : List ToolDoc)
    (hEq : ∀ k, pyGet (get_tool_versions store) k = pyGet (currentVersionMap discovered) k) :
    (detect_tool_changes discovered store).added = [] ∧
    (detect_tool_changes discovered store).updated = [] ∧
    (detect_tool_changes discovered store).removed = [] := by
  have hcurNodup : ((currentVersionMap discovered).map Prod.fst).Nodup := by
    rw [show currentVersionMap discovered = (allToolsOf discovered).foldl
          (fun m t => pySet m (toolKey t.server_id t.name) (generate_tool_version t)) []
        from rfl]
    exact foldl_pySet_keys_nodup _ _ _ [] (by simp)
  have hidxNodup : ((get_tool_versions store).map Prod.fst).Nodup := by
    rw [show get_tool_versions store = store.foldl
          (fun m d => pySet m d.tool_id d.tool_version) [] from rfl]
    exact foldl_pySet_keys_nodup _ _ _ [] (by simp)
  refine ⟨?_, ?_, ?_⟩
  · show ((currentVersionMap discovered).filter
        (fun p => !pyContains (get_tool_versions store) p.1)).map Prod.fst = []
    rw [List.filter_eq_nil_iff.mpr, List.map_nil]
    intro p hp
    have : pyGet (get_tool_versions store) p.1 = some p.2 := by
      rw [hEq p.1]
      exact pyGet_of_mem_nodup _ _ _ (by rw [show (p.1, p.2) = p from rfl]; exact hp) hcurNodup
    simp [pyContains, this]
  · show ((currentVersionMap discovered).filter
        (fun p => match pyGet (get_tool_versions store) p.1 with
                  | some w => w != p.2
                  | none => false)).map Prod.fst = []
    rw [List.filter_eq_nil_iff.mpr, List.map_nil]
    intro p hp
    have : pyGet (get_tool_versions store) p.1 = some p.2 := by
      rw [hEq p.1]
      exact pyGet_of_mem_nodup _ _ _ (by rw [show (p.1, p.2) = p from rfl]; exact hp) hcurNodup
    simp [this]
  · show ((get_tool_versions store).filter
        (fun p => !pyContains (currentVersionMap discovered) p.1)).map Prod.fst = []
    rw [List.filter_eq_nil_iff.mpr, List.map_nil]
    intro p hp
    have : pyGet (currentVersionMap discovered) p.1 = some p.2 := by
      rw [← hEq p.1]
      exact pyGet_of_mem_nodup _ _ _ (by rw [show (p.1, p.2) = p from rfl]; exact hp) hidxNodup
    simp [pyContains, this]

/-- C7: after a full build over a cleared store, an incremental refresh from
an unchanged discovery outcome classifies every tool as unchanged and
reports `added = 0, updated = 0, removed = 0`. -/
theorem c7_no_change_zero_delta (servers : List (String × MCPServer))
    (discovered : List (String × List ToolInfo)) (nowB nowR : String)
    (n : Nat) (store : List ToolDoc)
    (hs : ∀ p ∈ discovered, ∀ t ∈ p.2, (pyGet servers t.server_id).isSome = true)
    (hb : build_index servers discovered [] nowB = some (n, store)) :
    (detect_tool_changes discovered store).added = [] ∧
    (detect_tool_changes discovered store).updated = [] ∧
    (detect_tool_changes discovered store).removed = [] ∧
    refresh_index_incremental servers discovered store nowR =
      some ({ added := 0, updated := 0, removed := 0,
              unchanged := (detect_tool_changes discovered store).unchanged.length }, store) := by
  have hp : ∀ t ∈ allToolsOf discovered, (pyGet servers t.server_id).isSome = true := by
    intro t ht
    rcases allToolsOf_mem discovered t ht with ⟨p, hpd, htp⟩
    exact hs p hpd t htp
  have hEq : ∀ k, pyGet (get_tool_versions store) k =
      pyGet (currentVersionMap discovered) k := by
    rw [build_index] at hb
    by_cases hall : (allToolsOf discovered).isEmpty = true
    · rw [if_pos hall] at hb
      simp only [Option.some.injEq, Prod.mk.injEq] at hb
      have hstore : store = [] := hb.2.symm
      have hnil : allToolsOf discovered = [] := List.isEmpty_iff.mp hall
      intro k
      rw [hstore]
      rw [show currentVersionMap discovered =
            (allToolsOf discovered).foldl (fun m t =>
              pySet m (toolKey t.server_id t.name) (generate_tool_version t)) [] from rfl]
      rw [hnil]
      rfl
    · rw [if_neg hall] at hb
      cases hd : buildDocsFor servers nowB (allToolsOf discovered) with
      | none =>
          rw [hd] at hb
          exact absurd hb (by simp)
      | some ds =>
          rw [hd] at hb
          simp only [Option.map_some', Option.some.injEq, Prod.mk.injEq] at hb
          have hstore : store = index_tools_batch [] ds := hb.2.symm
          intro k
          have hNodup : ((index_tools_batch [] ds).map ToolDoc.tool_id).Nodup :=
            index_tools_batch_ids_nodup ds [] (by simp)
          rw [hstore, get_tool_versions_eq_proj _ hNodup k]
          exact build_batch_versions servers nowB (allToolsOf discovered) ds [] [] hd hp
            (fun _ => rfl) k
  obtain ⟨ha, hu, hr⟩ := detect_no_changes discovered store hEq
  refine ⟨ha, hu, hr, ?_⟩
  rw [refresh_index_incremental, ha, hu, hr]
  rfl

/-- The server of the C7 witness scenario. -/
def c7Server : MCPServer :=
  { mkMCPServer "s" "http://s" "http" [] with
      name := some "s", description := some "MCP服务器: s" }

/-- The tool the C7 witness scenario discovers (twice, unchanged). -/
def c7Tool : ToolInfo :=
  { name := "read_file", description := "读取文件内容", server_id := "s",
    server_url := "http://s",
    parameters := Json.obj
      [("type", Json.str "object"),
       ("properties", Json.obj
          [("path", Json.obj [("type", Json.str "string"), ("description", Json.str "文件路径")])])],
    category := some "file_operations", tags := ["file"] }

/-- The registry of the C7 witness scenario. -/
def c7Servers : List (String × MCPServer) := [("s", c7Server)]

/-- The (repeated) discovery outcome of the C7 witness scenario. -/
def c7D : List (String × List ToolInfo) := [("s", [c7Tool])]

/-- The store produced by the witness full build. -/
def c7Store : List ToolDoc := ((build_index c7Servers c7D [] "t0").getD (0, [])).2

/-- C7 witness: a full build of one concrete tool followed by a refresh from
the identical discovery reports a zero delta. -/
theorem c7_no_change_zero_delta_witness :
    (detect_tool_changes c7D c7Store).added = [] ∧
    (detect_tool_changes c7D c7Store).updated = [] ∧
    (detect_tool_changes c7D c7Store).removed = [] ∧
    refresh_index_incremental c7Servers c7D c7Store "t1" =
      some ({ added := 0, updated := 0, removed := 0,
              unchanged := (detect_tool_changes c7D c7Store).unchanged.length }, c7Store) :=
  c7_no_change_zero_delta c7Servers c7D "t0" "t1"
    ((build_index c7Servers c7D [] "t0").getD (0, [])).1 c7Store (by decide) rfl
